import Mathlib

/-!
Verification of the SunWatcher (SunsetScout) geospatial pipeline.

This file gives a shallow embedding, in Lean 4, of the core functions of the
repository:

  - geodesy helpers (src/utils.js, bundled inside viewshed-worker.js):
    haversine, destinationPoint, curvatureDrop, generateHexGrid, chunk,
    fetchWithRetry;
  - viewshed analysis (src/viewshed.js): generateRayPoints,
    computeObstruction, and the per-candidate re-splitting of fetched ray
    elevations inside analyzeViewshed;
  - the scorer (src/scorer.js): scoreCandidate, rankCandidates;
  - the elevation service (src/elevation.js): cacheKey, fetchBatchWithFallback,
    fetchElevations with its point cache.

JavaScript numbers are modelled by real numbers (for the trigonometric
geometry) or by rationals (for the elevation bookkeeping, where every finite
double is a rational and exact evaluation is wanted).  Math.atan2 is modelled
through the argument of a complex number, which has the same piecewise
definition.  The JS remainder operator is modelled by jsMod via a truncated
quotient, as JS computes it for the (nonnegative-dividend) uses in this code.
-/

/-! ## Geodesy (src/utils.js inside viewshed-worker.js, lines 464-634) -/

/-- Math.atan2 y x, modelled as the argument of the complex number x + y i.
Both are arctan (y/x) corrected to the quadrant of (x, y), with value 0 at
the origin. -/
noncomputable def atan2 (y x : ℝ) : ℝ :=
  Complex.arg ⟨x, y⟩

/-- Truncation toward zero, as JS uses for the remainder operator. -/
noncomputable def jsTrunc (x : ℝ) : ℤ :=
  if x < 0 then -⌊-x⌋ else ⌊x⌋

/-- The JS remainder a % b (sign of the dividend; all uses in this code have
a nonnegative dividend and positive divisor). -/
noncomputable def jsMod (a b : ℝ) : ℝ :=
  a - b * jsTrunc (a / b)

def R_EARTH : ℝ := 6371000

noncomputable def DEG2RAD : ℝ := Real.pi / 180

noncomputable def RAD2DEG : ℝ := 180 / Real.pi

/-- A lat/lng pair in degrees. -/
structure Coordinate where
  lat : ℝ
  lng : ℝ

/-- Haversine distance between two lat/lng points in meters (utils.js). -/
noncomputable def haversine (lat1 lng1 lat2 lng2 : ℝ) : ℝ :=
  let dLat := (lat2 - lat1) * DEG2RAD
  let dLng := (lng2 - lng1) * DEG2RAD
  let a := Real.sin (dLat / 2) ^ 2 +
    Real.cos (lat1 * DEG2RAD) * Real.cos (lat2 * DEG2RAD) * Real.sin (dLng / 2) ^ 2
  2 * R_EARTH * atan2 (Real.sqrt a) (Real.sqrt (1 - a))

/-- Destination point given start, bearing (degrees) and distance (meters);
longitude is normalized to [-180, 180) (utils.js). -/
noncomputable def destinationPoint (lat lng bearingDeg distanceM : ℝ) : Coordinate :=
  let δ := distanceM / R_EARTH
  let θ := bearingDeg * DEG2RAD
  let φ1 := lat * DEG2RAD
  let lam1 := lng * DEG2RAD
  let φ2 := Real.arcsin (Real.sin φ1 * Real.cos δ + Real.cos φ1 * Real.sin δ * Real.cos θ)
  let lam2 := lam1 +
    atan2 (Real.sin θ * Real.sin δ * Real.cos φ1)
      (Real.cos δ - Real.sin φ1 * Real.sin φ2)
  ⟨φ2 * RAD2DEG, jsMod (lam2 * RAD2DEG + 540) 360 - 180⟩

/-- Earth curvature drop at a given distance in meters (utils.js). -/
noncomputable def curvatureDrop (distanceM : ℝ) : ℝ :=
  distanceM * distanceM / (2 * R_EARTH)

/-- The list of integers from a to b inclusive, for the counted for-loops of
the source. -/
def intRange (a b : ℤ) : List ℤ :=
  (List.range (b + 1 - a).toNat).map fun k : ℕ => a + (k : ℤ)

/-- Hex grid of points within a radius (meters) of center (utils.js
generateHexGrid, viewshed-worker.js lines 532-557). -/
noncomputable def generateHexGrid (centerLat centerLng radiusM spacingM : ℝ) : List Coordinate :=
  let rowSpacing := spacingM * Real.sqrt 3 / 2
  let maxRows := ⌈radiusM / rowSpacing⌉
  (intRange (-maxRows) maxRows).flatMap fun row =>
    let y := (row : ℝ) * rowSpacing
    if |y| > radiusM then []
    else
      let maxCols := ⌈radiusM / spacingM⌉
      let offset := if row % 2 ≠ 0 then spacingM / 2 else 0
      (intRange (-maxCols) maxCols).filterMap fun col =>
        let x := (col : ℝ) * spacingM + offset
        let dist := Real.sqrt (x * x + y * y)
        if dist > radiusM then none
        else some (destinationPoint centerLat centerLng
          (jsMod (atan2 x y * RAD2DEG + 360) 360) dist)

/-! ## Viewshed analysis (src/viewshed.js) -/

def RAY_SAMPLE_SPACING : ℝ := 300

def RAY_MAX_DISTANCE : ℝ := 8000

def CURVATURE_THRESHOLD : ℝ := 2000

/-- A ray point before elevation resolution: coordinates plus the distance at
which it was generated along the ray. -/
structure RayPoint where
  lat : ℝ
  lng : ℝ
  distance : ℝ

/-- Sample points along a ray from an origin in a given bearing
(viewshed.js lines 16-23): one point every spacing meters, out to maxDist. -/
noncomputable def generateRayPoints (originLat originLng bearingDeg maxDist spacing : ℝ) :
    List RayPoint :=
  (List.range (⌊maxDist / spacing⌋.toNat)).map fun k =>
    let d := ((k : ℝ) + 1) * spacing
    let pt := destinationPoint originLat originLng bearingDeg d
    ⟨pt.lat, pt.lng, d⟩

/-- A candidate viewpoint with resolved elevation. -/
structure Candidate where
  lat : ℝ
  lng : ℝ
  elevation : ℝ

/-- A ray sample handed to computeObstruction: coordinates, resolved
elevation, and distance from the candidate. -/
structure RaySample where
  lat : ℝ
  lng : ℝ
  elevation : ℝ
  distance : ℝ

/-- The result record of computeObstruction. -/
structure Obstruction where
  obstructionAngle : ℝ
  maxBlockerDistance : ℝ
  maxBlockerElevation : ℝ
  isClear : Prop

/-- The apparent elevation angle (degrees) of one ray sample seen from a
candidate at elevation candElev: the loop body of computeObstruction
(viewshed.js lines 36-46), including the curvature correction applied for
distances beyond CURVATURE_THRESHOLD. -/
noncomputable def sampleAngle (candElev : ℝ) (sample : RaySample) : ℝ :=
  let dist := sample.distance
  let terrainElev :=
    if dist > CURVATURE_THRESHOLD then sample.elevation - curvatureDrop dist
    else sample.elevation
  let elevDiff := terrainElev - candElev
  atan2 elevDiff dist * (180 / Real.pi)

/-- One iteration of the computeObstruction loop: the running triple is
(maxAngle, maxBlockerDistance, maxBlockerElevation), updated when the sample
angle strictly exceeds the running maximum (viewshed.js lines 48-52). -/
noncomputable def obstructionStep (candElev : ℝ) (acc : ℝ × ℝ × ℝ) (sample : RaySample) :
    ℝ × ℝ × ℝ :=
  if sampleAngle candElev sample > acc.1 then
    (sampleAngle candElev sample, sample.distance, sample.elevation)
  else acc

/-- Obstruction angle for a candidate viewpoint along a bearing
(viewshed.js lines 31-61, identically viewshed-worker.js lines 13-37). -/
noncomputable def computeObstruction (candidate : Candidate) (raySamples : List RaySample) :
    Obstruction :=
  let r := raySamples.foldl (obstructionStep candidate.elevation) (-90, 0, 0)
  { obstructionAngle := r.1
    maxBlockerDistance := r.2.1
    maxBlockerElevation := r.2.2
    isClear := r.1 < 0.5 }

/-- A fetched ray point as analyzeViewshed sees it after fetchElevations:
the spread preserves the original distance field and adds the (possibly
null) elevation. -/
structure ElevatedRayPoint where
  lat : ℝ
  lng : ℝ
  elevation : Option ℝ
  distance : ℝ

/-- The map step of the re-splitting in analyzeViewshed (viewshed.js lines
161-166): position j in the filtered list yields distance (j+1) times
RAY_SAMPLE_SPACING.  The counter argument mirrors the callback index j. -/
noncomputable def attachDistances : ℕ → List ElevatedRayPoint → List RaySample
  | _, [] => []
  | j, pt :: pts =>
    ⟨pt.lat, pt.lng, pt.elevation.getD 0, ((j : ℝ) + 1) * RAY_SAMPLE_SPACING⟩ ::
      attachDistances (j + 1) pts

/-- The per-candidate re-splitting of fetched ray elevations in
analyzeViewshed (viewshed.js lines 159-166): drop the samples whose
elevation resolved to null, then attach distances by position in the
filtered list. -/
noncomputable def buildRaySamples (pts : List ElevatedRayPoint) : List RaySample :=
  attachDistances 0 (pts.filter fun pt => pt.elevation.isSome)

/-! ## Scorer (src/scorer.js) -/

/-- A viewshed-analyzed candidate as the scorer receives it. -/
structure AnalyzedCandidate where
  lat : ℝ
  lng : ℝ
  elevation : ℝ
  obstructionAngle : ℝ
  maxBlockerDistance : ℝ
  isClear : Bool

/-- Scoring options: centerLat/centerLng/maxRadius may all be absent. -/
structure ScoreOptions where
  centerLat : Option ℝ
  centerLng : Option ℝ
  maxRadius : Option ℝ

/-- An analyzed candidate with its composite score and (later) its rank. -/
structure ScoredCandidate extends AnalyzedCandidate where
  score : ℤ
  rank : ℕ

open Classical in
/-- Composite score of one candidate (scorer.js lines 13-45).  Math.round
clamps to [0, 100]; the distance component falls back to a flat 10 when no
center or no (truthy) maxRadius is supplied. -/
noncomputable def scoreCandidate (candidate : AnalyzedCandidate) (options : ScoreOptions) : ℤ :=
  let obstructionScore : ℝ :=
    if candidate.isClear then
      max 0 (min 40 (min 40 (40 + candidate.obstructionAngle * (-4))))
    else
      max 0 (20 - candidate.obstructionAngle * 4)
  let elevScore : ℝ := min (candidate.elevation / 1000) 1 * 30
  let distScore : ℝ :=
    match options.centerLat, options.maxRadius with
    | some clat, some r =>
      if r = 0 then 10
      else
        let dist := haversine clat (options.centerLng.getD 0) candidate.lat candidate.lng
        (1 - min (dist / r) 1) * 15
    | _, _ => 10
  let marginScore : ℝ :=
    if candidate.obstructionAngle < 0 then min 15 (|candidate.obstructionAngle| * 5)
    else 0
  max 0 (min 100 (round (obstructionScore + elevScore + distScore + marginScore)))

/-- Sort by score descending: models scored.sort((a, b) => b.score - a.score)
in scorer.js line 59.  Array.sort may apply any comparator-consistent
reordering; insertion sort realizes one. -/
def sortByScoreDesc (l : List ScoredCandidate) : List ScoredCandidate :=
  List.insertionSort (fun a b => b.score ≤ a.score) l

/-- Rank assignment (scorer.js line 62): position i gets rank i + 1.  The
counter argument mirrors the forEach index. -/
def assignRanks : ℕ → List ScoredCandidate → List ScoredCandidate
  | _, [] => []
  | i, c :: cs => { c with rank := i + 1 } :: assignRanks (i + 1) cs

/-- Score and rank all candidate points, best first (scorer.js lines 53-65). -/
noncomputable def rankCandidates (candidates : List AnalyzedCandidate) (options : ScoreOptions) :
    List ScoredCandidate :=
  let scored := candidates.map fun c =>
    { toAnalyzedCandidate := c, score := scoreCandidate c options, rank := 0 }
  assignRanks 0 (sortByScoreDesc scored)

/-! ## Retry with backoff (utils.js fetchWithRetry, viewshed-worker.js lines 621-632) -/

/-- Whether an HTTP status counts as ok (response.ok: status in 200-299). -/
def isOkStatus (status : ℕ) : Bool :=
  decide (200 ≤ status ∧ status < 300)

/-- Outcome of one fetch attempt given an oracle of per-attempt responses:
none models a network error (fetch throws), some status a completed HTTP
response.  The attempt fails when fetch throws or the response is non-2xx
(fetchWithRetry throws on !response.ok). -/
def attemptFails (response : ℕ → Option ℕ) (attempt : ℕ) : Bool :=
  match response attempt with
  | none => true
  | some status => ! isOkStatus status

/-- Result of fetchWithRetry: how many fetch calls were made, whether the
last one succeeded, and the backoff delays (ms) slept between attempts. -/
structure RetryResult where
  attempts : ℕ
  success : Bool
  delays : List ℕ
deriving DecidableEq

/-- The retry loop of fetchWithRetry: attempt counts up from 0; remaining is
maxRetries minus attempt.  On failure at the last attempt the error
propagates; otherwise sleep 1000 * 2 ^ attempt ms and retry. -/
def retryLoop (response : ℕ → Option ℕ) : ℕ → ℕ → RetryResult
  | attempt, 0 =>
    if attemptFails response attempt then ⟨attempt + 1, false, []⟩
    else ⟨attempt + 1, true, []⟩
  | attempt, remaining + 1 =>
    if attemptFails response attempt then
      let rest := retryLoop response (attempt + 1) remaining
      ⟨rest.attempts, rest.success, 1000 * 2 ^ attempt :: rest.delays⟩
    else ⟨attempt + 1, true, []⟩

/-- Fetch with retry and exponential backoff (viewshed-worker.js lines
621-632): attempts 0, 1, ..., maxRetries. -/
def fetchWithRetry (response : ℕ → Option ℕ) (maxRetries : ℕ) : RetryResult :=
  retryLoop response 0 maxRetries

/-- The default maxRetries of fetchWithRetry. -/
def DEFAULT_MAX_RETRIES : ℕ := 3

/-- The maxRetries passed by fetchBatchOpenMeteo and fetchBatchOpenElevation
(elevation.js lines 30 and 52). -/
def ELEVATION_MAX_RETRIES : ℕ := 2

/-! ## Elevation service (src/elevation.js) -/

/-- An input point of fetchElevations.  Finite JS doubles are rationals, so
rational coordinates model them exactly and keep evaluation decidable. -/
structure Pt where
  lat : ℚ
  lng : ℚ
deriving DecidableEq

/-- An output point of fetchElevations: the input point spread together with
its (possibly null) elevation. -/
structure ElevPt where
  lat : ℚ
  lng : ℚ
  elevation : Option ℚ
deriving DecidableEq

/-- The elevation point cache, an association list keyed by rounded
coordinates; the most recent insertion (head) wins, as for Map.set. -/
abbrev Cache := List ((ℤ × ℤ) × ℚ)

/-- Lookup in the cache (Map.get / Map.has). -/
def cacheFind : Cache → ℤ × ℤ → Option ℚ
  | [], _ => none
  | (k, v) :: rest, key => if key = k then some v else cacheFind rest key

/-- Cache key from rounding lat and lng to 5 decimals (elevation.js lines
16-18): toFixed(5) rounds ties to the larger value, which is Lean round. -/
def cacheKey (lat lng : ℚ) : ℤ × ℤ :=
  (round (lat * 100000), round (lng * 100000))

def BATCH_SIZE : ℕ := 100

def CONCURRENCY : ℕ := 2

/-- Structural helper for chunk, recursing on a fuel bounded by the list
length (each step consumes at least one element when size is positive). -/
def chunkAux {α : Type} (size : ℕ) : ℕ → List α → List (List α)
  | _, [] => []
  | 0, _ :: _ => []
  | fuel + 1, x :: xs => (x :: xs).take size :: chunkAux size fuel ((x :: xs).drop size)

/-- Chunk an array into groups of a given size (utils.js lines 562-568).
The JS loop does not terminate for size 0; that case is mapped to []. -/
def chunk {α : Type} (l : List α) (size : ℕ) : List (List α) :=
  if size = 0 then [] else chunkAux size l.length l

/-- A batch fetcher: the outcome of fetchBatchWithFallback on one batch, one
optional elevation per batch entry.  It abstracts over the network. -/
abbrev BatchFetcher := List Pt → List (Option ℚ)

/-- Fetch a batch trying the primary provider then the fallback
(elevation.js lines 62-76): each provider either returns an elevation list
or throws (none); if both throw, every entry of the batch resolves to null. -/
def fetchBatchWithFallback (primary fallbackProvider : List Pt → Option (List ℚ))
    (batch : List Pt) : List (Option ℚ) :=
  match primary batch with
  | some elevations => elevations.map some
  | none =>
    match fallbackProvider batch with
    | some elevations => elevations.map some
    | none => batch.map fun _ => none

/-- The element the merge loop of fetchElevations reads for the j-th
uncached point: batchResults[j / BATCH_SIZE][j % BATCH_SIZE], with a missing
batch or a missing entry (undefined in JS) reading as null (elevation.js
lines 117-134, the batchIdx/withinBatch walk). -/
def batchLookup (batchResults : List (List (Option ℚ))) (j : ℕ) : Option ℚ :=
  ((batchResults[j / BATCH_SIZE]?).bind fun batch => batch[j % BATCH_SIZE]?).join

/-- The flat queue of per-uncached-point resolutions, in uncached order. -/
def strideList (batchResults : List (List (Option ℚ))) (count : ℕ) : List (Option ℚ) :=
  (List.range count).map (batchLookup batchResults)

/-- Whether a point misses the cache (elevation.js lines 90-97). -/
def isMiss (cache : Cache) (p : Pt) : Bool :=
  (cacheFind cache (cacheKey p.lat p.lng)).isNone

/-- The merge loop of fetchElevations (elevation.js lines 90-97 and
117-135) as one walk over the input points: a cache hit (tested against the
original cache, as the JS hit loop runs before any mutation) takes its
cached value; a miss consumes the next queue entry, and a successful
resolution is inserted into the accumulated cache. -/
def mergeLoop (cache0 : Cache) : List Pt → List (Option ℚ) → Cache → List ElevPt × Cache
  | [], _, acc => ([], acc)
  | p :: ps, queue, acc =>
    if isMiss cache0 p then
      match queue with
      | [] =>
        let rest := mergeLoop cache0 ps [] acc
        (⟨p.lat, p.lng, none⟩ :: rest.1, rest.2)
      | v :: qs =>
        let acc2 :=
          match v with
          | some elev => (cacheKey p.lat p.lng, elev) :: acc
          | none => acc
        let rest := mergeLoop cache0 ps qs acc2
        (⟨p.lat, p.lng, v⟩ :: rest.1, rest.2)
    else
      let rest := mergeLoop cache0 ps queue acc
      (⟨p.lat, p.lng, cacheFind cache0 (cacheKey p.lat p.lng)⟩ :: rest.1, rest.2)

/-- Fetch elevations for an array of points (elevation.js lines 85-144),
returning the result (or the thrown all-failed error) together with the
updated cache.  The batches are issued through asyncPool, which collects
per-batch promises in input order and awaits them with Promise.all, so the
batch results are in batch order regardless of completion order; this is
modelled by mapping the batch fetcher over the chunks. -/
def fetchElevations (fetchBatch : BatchFetcher) (cache : Cache) (points : List Pt) :
    Except String (List ElevPt) × Cache :=
  let uncached := points.filter (isMiss cache)
  if uncached.isEmpty then
    (Except.ok (points.map fun p => ⟨p.lat, p.lng, cacheFind cache (cacheKey p.lat p.lng)⟩),
      cache)
  else
    let batchResults := (chunk uncached BATCH_SIZE).map fetchBatch
    let queue := strideList batchResults uncached.length
    let merged := mergeLoop cache points queue cache
    if merged.1.countP (fun r => r.elevation.isSome) = 0 then
      (Except.error "All elevation requests failed", merged.2)
    else
      (Except.ok merged.1, merged.2)

/-- The resolution the code produces for the i-th input point: its cached
value on a hit, else the batch entry at its rank among the misses. -/
def pointResolution (fetchBatch : BatchFetcher) (cache : Cache) (points : List Pt) (i : ℕ) :
    Option ℚ :=
  match points[i]? with
  | none => none
  | some p =>
    if isMiss cache p then
      batchLookup ((chunk (points.filter (isMiss cache)) BATCH_SIZE).map fetchBatch)
        ((points.take i).filter (isMiss cache)).length
    else cacheFind cache (cacheKey p.lat p.lng)

/-! ## Helper lemmas: integer ranges, atan2 and jsMod at special points -/

lemma intRange_of_lt (a b : ℤ) (h : b < a) : intRange a b = [] := by
  have h0 : (b + 1 - a).toNat = 0 := by omega
  simp [intRange, h0]

lemma intRange_self (a : ℤ) : intRange a a = [a] := by
  have h1 : (a + 1 - a).toNat = 1 := by omega
  rw [intRange, h1]
  simp [List.range_succ]

lemma atan2_zero_zero : atan2 0 0 = 0 := by
  have h : (⟨0, 0⟩ : ℂ) = 0 := by
    apply Complex.ext <;> simp
  rw [atan2, h, Complex.arg_zero]

lemma jsMod_360_360 : jsMod 360 360 = 0 := by
  have h1 : (360 : ℝ) / 360 = 1 := by norm_num
  have h2 : jsTrunc 1 = 1 := by
    rw [jsTrunc]
    norm_num
  rw [jsMod, h1, h2]
  norm_num

/-! ## Grid edge cases (claim C3) -/

lemma generateHexGrid_zero (clat clng s : ℝ) :
    generateHexGrid clat clng 0 s = [destinationPoint clat clng 0 0] := by
  have hceil1 : ⌈(0 : ℝ) / (s * Real.sqrt 3 / 2)⌉ = 0 := by
    rw [zero_div]; exact Int.ceil_zero
  have hceil2 : ⌈(0 : ℝ) / s⌉ = 0 := by rw [zero_div]; exact Int.ceil_zero
  simp [generateHexGrid, hceil1, hceil2, intRange_self, atan2_zero_zero, jsMod_360_360]

lemma generateHexGrid_neg (clat clng r s : ℝ) (hs : 0 < s) (hr : r < 0) :
    generateHexGrid clat clng r s = [] := by
  have hsqrt : 0 < Real.sqrt 3 := Real.sqrt_pos.mpr (by norm_num)
  have hrs : 0 < s * Real.sqrt 3 / 2 := by positivity
  have hratio : r / (s * Real.sqrt 3 / 2) < 0 := div_neg_of_neg_of_pos hr hrs
  have hm : ⌈r / (s * Real.sqrt 3 / 2)⌉ ≤ 0 :=
    Int.ceil_le.mpr (by exact_mod_cast hratio.le)
  rcases lt_or_eq_of_le hm with hlt | heq
  · have hemp : intRange (-⌈r / (s * Real.sqrt 3 / 2)⌉) ⌈r / (s * Real.sqrt 3 / 2)⌉ = [] := by
      apply intRange_of_lt
      omega
    simp [generateHexGrid, hemp]
  · simp [generateHexGrid, heq, intRange_self, abs_of_nonneg, hr]

/-- C3 counterexample: at radius exactly 0 the grid is not empty, the center
point itself is emitted (the claim asserts emptiness for every radius at or
below zero). -/
theorem generateHexGrid_zero_radius_nonempty : generateHexGrid 0 0 0 350 ≠ [] := by
  rw [generateHexGrid_zero 0 0 350]
  simp

/-- C3 (corrected): for every center and every spacing above 0, a strictly
negative radius yields the empty grid, and radius 0 yields at most one point
(the center). -/
theorem generateHexGrid_nonpos_radius_empty (clat clng radiusM spacingM : ℝ)
    (hs : 0 < spacingM) :
    (radiusM < 0 → generateHexGrid clat clng radiusM spacingM = []) ∧
    (radiusM = 0 → (generateHexGrid clat clng radiusM spacingM).length ≤ 1) := by
  constructor
  · intro hr
    exact generateHexGrid_neg clat clng radiusM spacingM hs hr
  · intro hr
    subst hr
    rw [generateHexGrid_zero]
    simp

/-- C3 witness: the corrected statement evaluated at spacing 350 with radius
-1 and radius 0. -/
theorem generateHexGrid_nonpos_radius_empty_witness :
    (0 : ℝ) < 350 ∧ generateHexGrid 0 0 (-1) 350 = [] ∧
      (generateHexGrid 0 0 0 350).length ≤ 1 :=
  ⟨by norm_num,
    (generateHexGrid_nonpos_radius_empty 0 0 (-1) 350 (by norm_num)).1 (by norm_num),
    (generateHexGrid_nonpos_radius_empty 0 0 0 350 (by norm_num)).2 rfl⟩

/-! ## Ray re-splitting (claim C1) -/

/-- C1 (code bug): in analyzeViewshed, when the first ray sample of a
candidate resolves to null and the second (generated at 600 m) resolves, the
surviving sample is reassigned distance (0+1)*300 = 300 m from its position
in the filtered list, although its generation distance - still present in
its distance field and produced by generateRayPoints - is 600 m.  The claim
(and the spec) require the surviving sample to keep distance 600. -/
theorem analyzeViewshed_resplit_reindexes :
    ((buildRaySamples [⟨0, 0, none, 300⟩, ⟨0, 0, some 10, 600⟩]).map fun s => s.distance)
        = [300] ∧
    (([(⟨0, 0, none, 300⟩ : ElevatedRayPoint), ⟨0, 0, some 10, 600⟩].filter
        fun pt => pt.elevation.isSome).map fun pt => pt.distance) = [600] ∧
    ((generateRayPoints 0 0 0 600 300).map fun pt => pt.distance) = [300, 600] := by
  refine ⟨?_, ?_, ?_⟩
  · simp [buildRaySamples, attachDistances, RAY_SAMPLE_SPACING]
  · simp
  · have h2 : (⌊(600 : ℝ) / 300⌋).toNat = 2 := by
      have h : (600 : ℝ) / 300 = 2 := by norm_num
      rw [h]
      norm_num
      rfl
    simp [generateRayPoints, h2, List.range_succ]
    norm_num

/-! ## Retry with backoff (claim C9) -/

lemma retryLoop_attempts_bounds (response : ℕ → Option ℕ) :
    ∀ remaining attempt : ℕ,
      attempt + 1 ≤ (retryLoop response attempt remaining).attempts ∧
      (retryLoop response attempt remaining).attempts ≤ attempt + remaining + 1 := by
  intro remaining
  induction remaining with
  | zero =>
    intro attempt
    rw [retryLoop]
    split <;> simp
  | succ r ih =>
    intro attempt
    rw [retryLoop]
    split
    · have h := ih (attempt + 1)
      simp only
      omega
    · simp

lemma retryLoop_all_fail (response : ℕ → Option ℕ) :
    ∀ remaining attempt : ℕ,
      (∀ k, attempt ≤ k → k ≤ attempt + remaining → attemptFails response k = true) →
      (retryLoop response attempt remaining).attempts = attempt + remaining + 1 ∧
        (retryLoop response attempt remaining).success = false := by
  intro remaining
  induction remaining with
  | zero =>
    intro attempt hfail
    have h := hfail attempt le_rfl (by omega)
    rw [retryLoop]
    simp [h]
  | succ r ih =>
    intro attempt hfail
    have h := hfail attempt le_rfl (by omega)
    rw [retryLoop]
    simp only [h, if_true]
    have h2 := ih (attempt + 1) (fun k hk1 hk2 => hfail k (by omega) (by omega))
    refine ⟨?_, ?_⟩
    · show (retryLoop response (attempt + 1) r).attempts = attempt + (r + 1) + 1
      omega
    · show (retryLoop response (attempt + 1) r).success = false
      exact h2.2

lemma retryLoop_success_iff (response : ℕ → Option ℕ) :
    ∀ remaining attempt : ℕ,
      ((retryLoop response attempt remaining).success = true ↔
        ∃ k, attempt ≤ k ∧ k ≤ attempt + remaining ∧ attemptFails response k = false) := by
  intro remaining
  induction remaining with
  | zero =>
    intro attempt
    rw [retryLoop]
    split
    · rename_i h
      simp only
      constructor
      · intro hfalse
        exact absurd hfalse (by simp)
      · rintro ⟨k, hk1, hk2, hk3⟩
        have hek : k = attempt := by omega
        subst hek
        rw [h] at hk3
        exact absurd hk3 (by simp)
    · rename_i h
      simp only
      constructor
      · intro _
        exact ⟨attempt, le_rfl, by omega, by simpa using h⟩
      · intro _
        trivial
  | succ r ih =>
    intro attempt
    rw [retryLoop]
    split
    · rename_i h
      simp only
      rw [ih (attempt + 1)]
      constructor
      · rintro ⟨k, hk1, hk2, hk3⟩
        exact ⟨k, by omega, by omega, hk3⟩
      · rintro ⟨k, hk1, hk2, hk3⟩
        refine ⟨k, ?_, by omega, hk3⟩
        rcases Nat.eq_or_lt_of_le hk1 with heq | hlt
        · subst heq
          rw [h] at hk3
          exact absurd hk3 (by simp)
        · omega
    · rename_i h
      simp only
      constructor
      · intro _
        exact ⟨attempt, le_rfl, by omega, by simpa using h⟩
      · intro _
        trivial

lemma range_map_exp_shift (c m a : ℕ) :
    (List.range m).map ((fun k => c * 2 ^ (a + k)) ∘ Nat.succ) =
      (List.range m).map (fun k => c * 2 ^ (a + 1 + k)) := by
  apply List.map_congr_left
  intro k hk
  show c * 2 ^ (a + Nat.succ k) = c * 2 ^ (a + 1 + k)
  have h : a + Nat.succ k = a + 1 + k := by omega
  rw [h]

lemma retryLoop_delays (response : ℕ → Option ℕ) :
    ∀ remaining attempt : ℕ,
      (retryLoop response attempt remaining).delays =
        (List.range ((retryLoop response attempt remaining).attempts - 1 - attempt)).map
          (fun k => 1000 * 2 ^ (attempt + k)) := by
  intro remaining
  induction remaining with
  | zero =>
    intro attempt
    rw [retryLoop]
    split <;> simp
  | succ r ih =>
    intro attempt
    rw [retryLoop]
    split
    · simp only
      have hge := (retryLoop_attempts_bounds response r (attempt + 1)).1
      set n := (retryLoop response (attempt + 1) r).attempts with hn
      have hshape : n - 1 - attempt = (n - 1 - (attempt + 1)) + 1 := by omega
      rw [ih (attempt + 1), hshape, List.range_succ_eq_map]
      simp only [List.map_cons, List.map_map]
      rw [range_map_exp_shift]
      norm_num
    · simp

/-- The per-attempt response sequence of the C9 counterexample: three 500s,
then a 200. -/
def respC9 : ℕ → Option ℕ := fun n => if n ≤ 2 then some 500 else some 200

/-- C9 counterexample: with the default maxRetries of 3, three failing
attempts are followed by a fourth fetch attempt, which succeeds, so the
function makes 4 attempts, not at most 3 as the claim states. -/
theorem fetchWithRetry_fourth_attempt_happens :
    (fetchWithRetry respC9 DEFAULT_MAX_RETRIES).attempts = 4 ∧
      (fetchWithRetry respC9 DEFAULT_MAX_RETRIES).success = true ∧
      ¬ (fetchWithRetry respC9 DEFAULT_MAX_RETRIES).attempts ≤ 3 := by
  decide

/-- C9 (corrected): fetchWithRetry makes up to maxRetries + 1 attempts (so 4
with the default of 3, and 3 for elevation batches, which pass 2), makes
exactly maxRetries + 1 attempts and fails when every attempt fails, succeeds
iff some attempt at or before maxRetries succeeds, sleeps 1000 * 2 ^ k ms
after the k-th failed non-final attempt (base 1 s, factor 2), and counts an
attempt as failed iff fetch throws or the HTTP status is outside 200-299. -/
theorem fetchWithRetry_spec (response : ℕ → Option ℕ) (maxRetries : ℕ) :
    (fetchWithRetry response maxRetries).attempts ≤ maxRetries + 1 ∧
    ((∀ k, k ≤ maxRetries → attemptFails response k = true) →
      (fetchWithRetry response maxRetries).attempts = maxRetries + 1 ∧
        (fetchWithRetry response maxRetries).success = false) ∧
    ((fetchWithRetry response maxRetries).success = true ↔
      ∃ k, k ≤ maxRetries ∧ attemptFails response k = false) ∧
    (fetchWithRetry response maxRetries).delays =
      (List.range ((fetchWithRetry response maxRetries).attempts - 1)).map
        (fun k => 1000 * 2 ^ k) ∧
    (∀ k status, response k = some status →
      (attemptFails response k = false ↔ 200 ≤ status ∧ status < 300)) ∧
    DEFAULT_MAX_RETRIES = 3 ∧ ELEVATION_MAX_RETRIES = 2 := by
  refine ⟨?_, ?_, ?_, ?_, ?_, rfl, rfl⟩
  · have h := (retryLoop_attempts_bounds response maxRetries 0).2
    simpa [fetchWithRetry] using h
  · intro hfail
    have h := retryLoop_all_fail response maxRetries 0 (fun k hk1 hk2 => hfail k (by omega))
    simpa [fetchWithRetry] using h
  · have h := retryLoop_success_iff response maxRetries 0
    simp only [fetchWithRetry]
    rw [h]
    constructor
    · rintro ⟨k, _, hk2, hk3⟩
      exact ⟨k, by omega, hk3⟩
    · rintro ⟨k, hk1, hk3⟩
      exact ⟨k, by omega, by omega, hk3⟩
  · have h := retryLoop_delays response maxRetries 0
    simpa [fetchWithRetry] using h
  · intro k status hk
    simp [attemptFails, hk, isOkStatus]

/-- C9 witness: the corrected statement applied to an always-failing response
with the default maxRetries: 4 attempts, no success. -/
theorem fetchWithRetry_spec_witness :
    (fetchWithRetry (fun _ => some 500) 3).attempts = 4 ∧
      (fetchWithRetry (fun _ => some 500) 3).success = false :=
  (fetchWithRetry_spec (fun _ => some 500) 3).2.1 (by decide)

/-! ## Scorer ranking (claim C8) -/

lemma assignRanks_length : ∀ (l : List ScoredCandidate) (i : ℕ),
    (assignRanks i l).length = l.length := by
  intro l
  induction l with
  | nil => intro i; simp [assignRanks]
  | cons c cs ih => intro i; simp [assignRanks, ih]

lemma range_map_add_shift (m i : ℕ) :
    (List.range m).map ((fun k => k + (i + 1)) ∘ Nat.succ) =
      (List.range m).map (fun k => k + (i + 1 + 1)) := by
  apply List.map_congr_left
  intro k hk
  show Nat.succ k + (i + 1) = k + (i + 1 + 1)
  omega

lemma assignRanks_map_rank : ∀ (l : List ScoredCandidate) (i : ℕ),
    (assignRanks i l).map (fun c => c.rank) = (List.range l.length).map fun k => k + (i + 1) := by
  intro l
  induction l with
  | nil => intro i; simp [assignRanks]
  | cons c cs ih =>
    intro i
    rw [assignRanks]
    simp only [List.map_cons, List.length_cons, List.range_succ_eq_map, List.map_map]
    rw [ih (i + 1), range_map_add_shift]
    simp

lemma assignRanks_map_score : ∀ (l : List ScoredCandidate) (i : ℕ),
    (assignRanks i l).map (fun c => c.score) = l.map fun c => c.score := by
  intro l
  induction l with
  | nil => intro i; simp [assignRanks]
  | cons c cs ih => intro i; simp [assignRanks, ih]

/-- C8 (confirmed): rankCandidates returns as many candidates as it was
given, their rank fields read in output order are exactly 1, 2, ..., N, and
the output scores are sorted in descending order. -/
theorem rankCandidates_sorted_dense_ranks (cs : List AnalyzedCandidate) (opts : ScoreOptions) :
    (rankCandidates cs opts).length = cs.length ∧
    ((rankCandidates cs opts).map fun c => c.rank) =
      (List.range cs.length).map (fun k => k + 1) ∧
    ((rankCandidates cs opts).map fun c => c.score).Pairwise fun a b => b ≤ a := by
  haveI htot : IsTotal ScoredCandidate (fun a b => b.score ≤ a.score) :=
    ⟨fun a b => le_total b.score a.score⟩
  haveI htrans : IsTrans ScoredCandidate (fun a b => b.score ≤ a.score) :=
    ⟨fun _ _ _ hab hbc => le_trans hbc hab⟩
  unfold rankCandidates sortByScoreDesc
  refine ⟨?_, ?_, ?_⟩
  · rw [assignRanks_length, List.length_insertionSort, List.length_map]
  · rw [assignRanks_map_rank, List.length_insertionSort, List.length_map]
  · rw [assignRanks_map_score]
    rw [List.pairwise_map]
    exact List.sorted_insertionSort _ _

/-! ## Obstruction computation (claims C2 and C7) -/

lemma obstructionStep_fst (e : ℝ) (acc : ℝ × ℝ × ℝ) (s : RaySample) :
    (obstructionStep e acc s).1 = max acc.1 (sampleAngle e s) := by
  rw [obstructionStep]
  split
  · rename_i h
    exact (max_eq_right h.le).symm
  · rename_i h
    exact (max_eq_left (not_lt.mp h)).symm

lemma foldl_obstructionStep_fst (e : ℝ) :
    ∀ (l : List RaySample) (acc : ℝ × ℝ × ℝ),
      (l.foldl (obstructionStep e) acc).1 =
        l.foldl (fun m s => max m (sampleAngle e s)) acc.1 := by
  intro l
  induction l with
  | nil => intro acc; rfl
  | cons s ss ih =>
    intro acc
    rw [List.foldl_cons, List.foldl_cons, ih, obstructionStep_fst]

lemma init_le_foldl_max (e : ℝ) :
    ∀ (l : List RaySample) (m : ℝ),
      m ≤ l.foldl (fun m' s' => max m' (sampleAngle e s')) m := by
  intro l
  induction l with
  | nil => intro m; exact le_rfl
  | cons t ts ih =>
    intro m
    rw [List.foldl_cons]
    exact le_trans (le_max_left _ _) (ih _)

lemma le_foldl_max (e : ℝ) :
    ∀ (l : List RaySample) (m : ℝ) (s : RaySample), s ∈ l →
      sampleAngle e s ≤ l.foldl (fun m' s' => max m' (sampleAngle e s')) m := by
  intro l
  induction l with
  | nil => intro m s hs; exact absurd hs (List.not_mem_nil s)
  | cons t ts ih =>
    intro m s hs
    rw [List.foldl_cons]
    rcases List.mem_cons.mp hs with heq | hmem
    · subst heq
      calc sampleAngle e s ≤ max m (sampleAngle e s) := le_max_right _ _
        _ ≤ ts.foldl (fun m' s' => max m' (sampleAngle e s')) (max m (sampleAngle e s)) :=
          init_le_foldl_max e ts _
    · exact ih _ s hmem

lemma foldl_max_le (e : ℝ) :
    ∀ (l : List RaySample) (m b : ℝ), m ≤ b → (∀ s ∈ l, sampleAngle e s ≤ b) →
      l.foldl (fun m' s' => max m' (sampleAngle e s')) m ≤ b := by
  intro l
  induction l with
  | nil => intro m b hm _; exact hm
  | cons t ts ih =>
    intro m b hm hall
    rw [List.foldl_cons]
    exact ih _ b (max_le hm (hall t (by simp))) fun s hs => hall s (by simp [hs])

lemma foldl_obstructionStep_provenance (e : ℝ) :
    ∀ (l : List RaySample) (acc : ℝ × ℝ × ℝ),
      l.foldl (obstructionStep e) acc = acc ∨
        ∃ s ∈ l, l.foldl (obstructionStep e) acc = (sampleAngle e s, s.distance, s.elevation) := by
  intro l
  induction l with
  | nil => intro acc; left; rfl
  | cons s ss ih =>
    intro acc
    rw [List.foldl_cons]
    rcases ih (obstructionStep e acc s) with h | ⟨t, ht, heq⟩
    · rw [h, obstructionStep]
      split
      · right
        exact ⟨s, by simp, rfl⟩
      · left
        rfl
    · right
      exact ⟨t, by simp [ht], heq⟩

lemma sampleAngle_def (e : ℝ) (s : RaySample) :
    sampleAngle e s =
      atan2 ((if s.distance > CURVATURE_THRESHOLD then
          s.elevation - curvatureDrop s.distance else s.elevation) - e) s.distance *
        (180 / Real.pi) := rfl

lemma sampleAngle_bounds (e : ℝ) (s : RaySample) (hd : 0 < s.distance) :
    -90 < sampleAngle e s ∧ sampleAngle e s < 90 := by
  have harg : |atan2 ((if s.distance > CURVATURE_THRESHOLD then
      s.elevation - curvatureDrop s.distance else s.elevation) - e) s.distance| < Real.pi / 2 := by
    rw [atan2]
    exact Complex.abs_arg_lt_pi_div_two_iff.mpr (Or.inl hd)
  have hpi : (0 : ℝ) < Real.pi := Real.pi_pos
  have habs : |sampleAngle e s| < 90 := by
    rw [sampleAngle_def, abs_mul, abs_of_pos (by positivity : (0 : ℝ) < 180 / Real.pi)]
    calc |atan2 _ s.distance| * (180 / Real.pi)
        < Real.pi / 2 * (180 / Real.pi) :=
          mul_lt_mul_of_pos_right harg (by positivity)
      _ = 90 := by field_simp; ring
  exact abs_lt.mp habs

lemma atan2_ge_of_tan_le (y x t : ℝ) (hx : 0 < x) (ht2 : t < Real.pi / 2)
    (h : Real.tan t * x ≤ y) : t ≤ atan2 y x := by
  by_contra hlt
  push_neg at hlt
  have habs : |atan2 y x| < Real.pi / 2 := by
    rw [atan2]
    exact Complex.abs_arg_lt_pi_div_two_iff.mpr (Or.inl hx)
  have htan : Real.tan (atan2 y x) = y / x := by
    rw [atan2]
    exact Complex.tan_arg ⟨x, y⟩
  have hmono : Real.tan (atan2 y x) < Real.tan t :=
    Real.tan_lt_tan_of_lt_of_lt_pi_div_two (neg_lt_of_abs_lt habs) ht2 hlt
  rw [htan] at hmono
  have hyx : y < Real.tan t * x := by
    calc y = y / x * x := by field_simp
      _ < Real.tan t * x := by
        exact mul_lt_mul_of_pos_right hmono hx
  linarith

/-- C2 (corrected): if some ray sample at a positive distance no greater
than the 2000 m curvature threshold has elevation at least
candidate + tan(epsilon degrees) * distance for some epsilon in [0.5, 90),
then computeObstruction reports the view as not clear. -/
theorem computeObstruction_blocked_not_clear (candidate : Candidate)
    (samples : List RaySample) (s : RaySample) (hmem : s ∈ samples)
    (hd0 : 0 < s.distance) (hd2 : s.distance ≤ CURVATURE_THRESHOLD) (ε : ℝ)
    (hε1 : 0.5 ≤ ε) (hε2 : ε < 90)
    (helev : candidate.elevation + Real.tan (ε * Real.pi / 180) * s.distance ≤ s.elevation) :
    ¬ (computeObstruction candidate samples).isClear := by
  have hpi : (0 : ℝ) < Real.pi := Real.pi_pos
  have hnc : ¬ (s.distance > CURVATURE_THRESHOLD) := not_lt.mpr hd2
  have ht2 : ε * Real.pi / 180 < Real.pi / 2 := by nlinarith
  have hge := atan2_ge_of_tan_le (s.elevation - candidate.elevation) s.distance
    (ε * Real.pi / 180) hd0 ht2 (by linarith)
  have hangle_ge : ε ≤ sampleAngle candidate.elevation s := by
    rw [sampleAngle_def, if_neg hnc]
    calc ε = ε * Real.pi / 180 * (180 / Real.pi) := by field_simp
      _ ≤ atan2 (s.elevation - candidate.elevation) s.distance * (180 / Real.pi) :=
        mul_le_mul_of_nonneg_right hge (by positivity)
  have hfold : sampleAngle candidate.elevation s ≤
      (samples.foldl (obstructionStep candidate.elevation) (-90, 0, 0)).1 := by
    rw [foldl_obstructionStep_fst]
    exact le_foldl_max candidate.elevation samples _ s hmem
  show ¬ ((samples.foldl (obstructionStep candidate.elevation) (-90, 0, 0)).1 < 0.5)
  push_neg
  linarith

/-- C2 witness: a sample 400 m above the candidate at 300 m distance
satisfies the hypotheses with epsilon = 45 (tan 45 = 1), and the view is
reported obstructed. -/
theorem computeObstruction_blocked_not_clear_witness :
    ((⟨0, 0, 400, 300⟩ : RaySample) ∈ [(⟨0, 0, 400, 300⟩ : RaySample)] ∧
      (0 : ℝ) < 300 ∧ (300 : ℝ) ≤ CURVATURE_THRESHOLD ∧ (0.5 : ℝ) ≤ 45 ∧ (45 : ℝ) < 90 ∧
      (0 : ℝ) + Real.tan (45 * Real.pi / 180) * 300 ≤ 400) ∧
    ¬ (computeObstruction ⟨0, 0, 0⟩ [⟨0, 0, 400, 300⟩]).isClear := by
  have htan : Real.tan (45 * Real.pi / 180) = 1 := by
    rw [show (45 : ℝ) * Real.pi / 180 = Real.pi / 4 by ring]
    exact Real.tan_pi_div_four
  refine ⟨⟨by simp, by norm_num, by norm_num [CURVATURE_THRESHOLD], by norm_num, by norm_num,
    by rw [htan]; norm_num⟩, ?_⟩
  exact computeObstruction_blocked_not_clear ⟨0, 0, 0⟩ [⟨0, 0, 400, 300⟩] ⟨0, 0, 400, 300⟩
    (by simp) (by norm_num) (by norm_num [CURVATURE_THRESHOLD]) 45 (by norm_num) (by norm_num)
    (by rw [htan]; norm_num)

lemma atan2_lt_of_div_lt (y x t : ℝ) (hx : 0 < x) (ht1 : 0 < t) (ht2 : t < Real.pi / 2)
    (h : y / x < t) : atan2 y x < t := by
  by_contra hge
  push_neg at hge
  have habs : |atan2 y x| < Real.pi / 2 := by
    rw [atan2]
    exact Complex.abs_arg_lt_pi_div_two_iff.mpr (Or.inl hx)
  have htan : Real.tan (atan2 y x) = y / x := by
    rw [atan2]
    exact Complex.tan_arg ⟨x, y⟩
  have hmem1 : t ∈ Set.Ioo (-(Real.pi / 2)) (Real.pi / 2) := ⟨by linarith, ht2⟩
  have hmem2 : atan2 y x ∈ Set.Ioo (-(Real.pi / 2)) (Real.pi / 2) :=
    ⟨neg_lt_of_abs_lt habs, lt_of_abs_lt habs⟩
  have hmono : Real.tan t ≤ Real.tan (atan2 y x) :=
    Real.strictMonoOn_tan.monotoneOn hmem1 hmem2 hge
  have hlt : t < Real.tan t := Real.lt_tan ht1 ht2
  rw [htan] at hmono
  linarith

/-- C2 counterexample: a sample at 5000 m whose elevation meets the claimed
threshold for epsilon = 0.5 (elevation 43.7 m over the candidate, while
tan(0.5 deg) * 5000 m is about 43.63 m), yet computeObstruction subtracts the
curvature drop of about 1.96 m first, leaving an apparent angle below 0.5
degrees, so the result is clear, and the claim as stated (covering samples
beyond the 2000 m threshold) is false. -/
theorem computeObstruction_curvature_defeats_claim :
    ((0.5 : ℝ) ≤ 0.5 ∧
      (0 : ℝ) + Real.tan (0.5 * Real.pi / 180) * 5000 ≤ 437 / 10) ∧
    (computeObstruction ⟨0, 0, 0⟩ [⟨0, 0, 437 / 10, 5000⟩]).isClear := by
  have hpi : (0 : ℝ) < Real.pi := Real.pi_pos
  have hpiu : Real.pi < 3.141593 := Real.pi_lt_d6
  have hpil : 3.141592 < Real.pi := Real.pi_gt_d6
  have hx360 : (0.5 : ℝ) * Real.pi / 180 = Real.pi / 360 := by ring
  have hxpos : (0 : ℝ) < Real.pi / 360 := by positivity
  have hxlt : Real.pi / 360 < 0.0087267 := by linarith
  have hxlt2 : Real.pi / 360 < Real.pi / 2 := by linarith
  constructor
  · refine ⟨le_rfl, ?_⟩
    rw [hx360]
    have hsin : Real.sin (Real.pi / 360) < Real.pi / 360 := Real.sin_lt hxpos
    have hcos : 1 - (Real.pi / 360) ^ 2 / 2 ≤ Real.cos (Real.pi / 360) :=
      Real.one_sub_sq_div_two_le_cos
    have hcos2 : (0.9999 : ℝ) < Real.cos (Real.pi / 360) := by nlinarith
    have htan : Real.tan (Real.pi / 360) = Real.sin (Real.pi / 360) / Real.cos (Real.pi / 360) :=
      Real.tan_eq_sin_div_cos _
    have hsin0 : 0 ≤ Real.sin (Real.pi / 360) :=
      Real.sin_nonneg_of_nonneg_of_le_pi (by positivity) (by linarith)
    rw [htan, zero_add, div_mul_eq_mul_div, div_le_iff₀ (by linarith)]
    nlinarith [hsin0]
  · have hd : (0 : ℝ) < 5000 := by norm_num
    have hgt : (5000 : ℝ) > CURVATURE_THRESHOLD := by norm_num [CURVATURE_THRESHOLD]
    have hdy : ((if (5000 : ℝ) > CURVATURE_THRESHOLD then
        (437 / 10 : ℝ) - curvatureDrop 5000 else 437 / 10) - 0) =
        437 / 10 - 12500 / 6371 := by
      rw [if_pos hgt, curvatureDrop, R_EARTH]
      norm_num
    have hangle : sampleAngle 0 ⟨0, 0, 437 / 10, 5000⟩ < 0.5 := by
      rw [sampleAngle_def]
      simp only
      rw [hdy]
      have harglt : atan2 (437 / 10 - 12500 / 6371) 5000 < Real.pi / 360 := by
        apply atan2_lt_of_div_lt _ _ _ hd hxpos hxlt2
        rw [div_lt_iff₀ hd]
        nlinarith
      calc atan2 (437 / 10 - 12500 / 6371) 5000 * (180 / Real.pi)
          < Real.pi / 360 * (180 / Real.pi) :=
            mul_lt_mul_of_pos_right harglt (by positivity)
        _ = 0.5 := by field_simp; ring
    show (List.foldl (obstructionStep 0) (-90, 0, 0) [⟨0, 0, 437 / 10, 5000⟩]).1 < 0.5
    rw [foldl_obstructionStep_fst]
    show max (-90 : ℝ) (sampleAngle 0 ⟨0, 0, 437 / 10, 5000⟩) < 0.5
    exact max_lt (by norm_num) hangle

/-- C7 (confirmed): when every ray sample distance is a positive multiple of
the spacing and at most the maximum ray distance, the obstruction angle lies
in [-90, 90] degrees, and whenever it differs from -90 the reported blocker
distance lies between the spacing and the maximum ray distance. -/
theorem computeObstruction_angle_bounds (candidate : Candidate) (samples : List RaySample)
    (spacing maxDist : ℝ) (hsp : 0 < spacing)
    (hsamples : ∀ s ∈ samples,
      ∃ k : ℕ, 1 ≤ k ∧ s.distance = (k : ℝ) * spacing ∧ s.distance ≤ maxDist) :
    (-90 ≤ (computeObstruction candidate samples).obstructionAngle ∧
      (computeObstruction candidate samples).obstructionAngle ≤ 90) ∧
    ((computeObstruction candidate samples).obstructionAngle ≠ -90 →
      spacing ≤ (computeObstruction candidate samples).maxBlockerDistance ∧
        (computeObstruction candidate samples).maxBlockerDistance ≤ maxDist) := by
  have hdistpos : ∀ s ∈ samples, 0 < s.distance := by
    intro s hs
    obtain ⟨k, hk1, hk2, _⟩ := hsamples s hs
    have hk : (1 : ℝ) ≤ (k : ℝ) := by exact_mod_cast hk1
    nlinarith
  constructor
  · constructor
    · show -90 ≤ (samples.foldl (obstructionStep candidate.elevation) (-90, 0, 0)).1
      rw [foldl_obstructionStep_fst]
      exact init_le_foldl_max candidate.elevation samples _
    · show (samples.foldl (obstructionStep candidate.elevation) (-90, 0, 0)).1 ≤ 90
      rw [foldl_obstructionStep_fst]
      apply foldl_max_le
      · norm_num
      · intro s hs
        exact (sampleAngle_bounds candidate.elevation s (hdistpos s hs)).2.le
  · intro hne
    rcases foldl_obstructionStep_provenance candidate.elevation samples (-90, 0, 0) with
      h | ⟨s, hs, heq⟩
    · exfalso
      apply hne
      show (samples.foldl (obstructionStep candidate.elevation) (-90, 0, 0)).1 = -90
      rw [h]
    · obtain ⟨k, hk1, hk2, hk3⟩ := hsamples s hs
      have hk : (1 : ℝ) ≤ (k : ℝ) := by exact_mod_cast hk1
      constructor
      · show spacing ≤ (samples.foldl (obstructionStep candidate.elevation) (-90, 0, 0)).2.1
        rw [heq]
        show spacing ≤ s.distance
        rw [hk2]
        nlinarith
      · show (samples.foldl (obstructionStep candidate.elevation) (-90, 0, 0)).2.1 ≤ maxDist
        rw [heq]
        exact hk3

/-- C7 witness: the statement applied to one sample at distance 300 with
spacing 300 and maximum distance 8000. -/
theorem computeObstruction_angle_bounds_witness :
    ((0 : ℝ) < 300 ∧
      (∀ s ∈ [(⟨0, 0, 100, 300⟩ : RaySample)],
        ∃ k : ℕ, 1 ≤ k ∧ s.distance = (k : ℝ) * 300 ∧ s.distance ≤ 8000)) ∧
    ((-90 ≤ (computeObstruction ⟨0, 0, 50⟩ [⟨0, 0, 100, 300⟩]).obstructionAngle ∧
      (computeObstruction ⟨0, 0, 50⟩ [⟨0, 0, 100, 300⟩]).obstructionAngle ≤ 90) ∧
    ((computeObstruction ⟨0, 0, 50⟩ [⟨0, 0, 100, 300⟩]).obstructionAngle ≠ -90 →
      (300 : ℝ) ≤ (computeObstruction ⟨0, 0, 50⟩ [⟨0, 0, 100, 300⟩]).maxBlockerDistance ∧
        (computeObstruction ⟨0, 0, 50⟩ [⟨0, 0, 100, 300⟩]).maxBlockerDistance ≤ 8000)) := by
  have hsamples : ∀ s ∈ [(⟨0, 0, 100, 300⟩ : RaySample)],
      ∃ k : ℕ, 1 ≤ k ∧ s.distance = (k : ℝ) * 300 ∧ s.distance ≤ 8000 := by
    intro s hs
    rcases List.mem_singleton.mp hs with rfl
    exact ⟨1, le_rfl, by norm_num, by norm_num⟩
  exact ⟨⟨by norm_num, hsamples⟩,
    computeObstruction_angle_bounds ⟨0, 0, 50⟩ [⟨0, 0, 100, 300⟩] 300 8000 (by norm_num) hsamples⟩

/-! ## Elevation service: order preservation and resolution bookkeeping
(claims C4, C5, C10) -/

lemma mergeLoop_nil (cache0 : Cache) (queue : List (Option ℚ)) (acc : Cache) :
    mergeLoop cache0 [] queue acc = ([], acc) := by
  rw [mergeLoop.eq_def]

lemma mergeLoop_cons_hit (cache0 : Cache) (p : Pt) (ps : List Pt) (queue : List (Option ℚ))
    (acc : Cache) (hm : isMiss cache0 p = false) :
    mergeLoop cache0 (p :: ps) queue acc =
      (⟨p.lat, p.lng, cacheFind cache0 (cacheKey p.lat p.lng)⟩ ::
          (mergeLoop cache0 ps queue acc).1,
        (mergeLoop cache0 ps queue acc).2) := by
  conv_lhs => rw [mergeLoop.eq_def]
  simp [hm]

lemma mergeLoop_cons_miss_nil (cache0 : Cache) (p : Pt) (ps : List Pt) (acc : Cache)
    (hm : isMiss cache0 p = true) :
    mergeLoop cache0 (p :: ps) [] acc =
      (⟨p.lat, p.lng, none⟩ :: (mergeLoop cache0 ps [] acc).1,
        (mergeLoop cache0 ps [] acc).2) := by
  conv_lhs => rw [mergeLoop.eq_def]
  simp [hm]

lemma mergeLoop_cons_miss_some (cache0 : Cache) (p : Pt) (ps : List Pt) (elev : ℚ)
    (qs : List (Option ℚ)) (acc : Cache) (hm : isMiss cache0 p = true) :
    mergeLoop cache0 (p :: ps) (some elev :: qs) acc =
      (⟨p.lat, p.lng, some elev⟩ ::
          (mergeLoop cache0 ps qs ((cacheKey p.lat p.lng, elev) :: acc)).1,
        (mergeLoop cache0 ps qs ((cacheKey p.lat p.lng, elev) :: acc)).2) := by
  conv_lhs => rw [mergeLoop.eq_def]
  simp [hm]

lemma mergeLoop_cons_miss_none (cache0 : Cache) (p : Pt) (ps : List Pt)
    (qs : List (Option ℚ)) (acc : Cache) (hm : isMiss cache0 p = true) :
    mergeLoop cache0 (p :: ps) (none :: qs) acc =
      (⟨p.lat, p.lng, none⟩ :: (mergeLoop cache0 ps qs acc).1,
        (mergeLoop cache0 ps qs acc).2) := by
  conv_lhs => rw [mergeLoop.eq_def]
  simp [hm]

lemma mergeLoop_map_coords (cache0 : Cache) :
    ∀ (ps : List Pt) (queue : List (Option ℚ)) (acc : Cache),
      (mergeLoop cache0 ps queue acc).1.map (fun r => (r.lat, r.lng)) =
        ps.map fun p => (p.lat, p.lng) := by
  intro ps
  induction ps with
  | nil => intro queue acc; rfl
  | cons p ps ih =>
    intro queue acc
    by_cases hm : isMiss cache0 p
    · cases queue with
      | nil => rw [mergeLoop_cons_miss_nil cache0 p ps acc hm]; simp [ih]
      | cons v qs =>
        cases v with
        | none => rw [mergeLoop_cons_miss_none cache0 p ps qs acc hm]; simp [ih]
        | some elev => rw [mergeLoop_cons_miss_some cache0 p ps elev qs acc hm]; simp [ih]
    · rw [mergeLoop_cons_hit cache0 p ps queue acc (by simpa using hm)]
      simp [ih]

lemma mergeLoop_length (cache0 : Cache) (ps : List Pt) (queue : List (Option ℚ)) (acc : Cache) :
    (mergeLoop cache0 ps queue acc).1.length = ps.length := by
  have h := congrArg List.length (mergeLoop_map_coords cache0 ps queue acc)
  simpa using h

/-- C4 (confirmed): whenever fetchElevations returns normally, the result
list has the same length as the input and the point at every position keeps
the lat and lng of the input point at that position. -/
theorem fetchElevations_preserves_order (fetchBatch : BatchFetcher) (cache : Cache)
    (points : List Pt) (res : List ElevPt) (c2 : Cache)
    (h : fetchElevations fetchBatch cache points = (Except.ok res, c2)) :
    res.length = points.length ∧
      res.map (fun r => (r.lat, r.lng)) = points.map fun p => (p.lat, p.lng) := by
  simp only [fetchElevations] at h
  split at h
  · have h2 : points.map
        (fun p => (⟨p.lat, p.lng, cacheFind cache (cacheKey p.lat p.lng)⟩ : ElevPt)) = res :=
      Except.ok.inj (congrArg Prod.fst h)
    subst h2
    constructor
    · simp
    · simp [List.map_map, Function.comp]
  · split at h
    · exact absurd (congrArg Prod.fst h) (by simp)
    · have h1 := Except.ok.inj (congrArg Prod.fst h)
      subst h1
      constructor
      · exact mergeLoop_length cache points _ cache
      · exact mergeLoop_map_coords cache points _ cache

/-- C4 witness: a one-point call on an empty cache resolves through one
batch and returns the same point, in order, with its fetched elevation. -/
theorem fetchElevations_preserves_order_witness :
    fetchElevations (fun batch => batch.map fun _ => some 7) [] [⟨1, 2⟩] =
      (Except.ok [⟨1, 2, some 7⟩], [(cacheKey 1 2, 7)]) ∧
    ([(⟨1, 2, some 7⟩ : ElevPt)].length = [(⟨1, 2⟩ : Pt)].length ∧
      [(⟨1, 2, some 7⟩ : ElevPt)].map (fun r => (r.lat, r.lng)) =
        [(⟨1, 2⟩ : Pt)].map fun p => (p.lat, p.lng)) := by
  have h : fetchElevations (fun batch => batch.map fun _ => some 7) [] [⟨1, 2⟩] =
      (Except.ok [⟨1, 2, some 7⟩], [(cacheKey 1 2, 7)]) := by rfl
  exact ⟨h, fetchElevations_preserves_order _ _ _ _ _ h⟩

lemma mergeLoop_elevation (cache0 : Cache) :
    ∀ (ps : List Pt) (queue : List (Option ℚ)) (acc : Cache) (i : ℕ),
      ((mergeLoop cache0 ps queue acc).1[i]?).map (fun r => r.elevation) =
        (ps[i]?).map fun p =>
          if isMiss cache0 p then
            (queue[((ps.take i).filter (isMiss cache0)).length]?).join
          else cacheFind cache0 (cacheKey p.lat p.lng) := by
  intro ps
  induction ps with
  | nil => intro queue acc i; simp [mergeLoop_nil]
  | cons p ps ih =>
    intro queue acc i
    by_cases hm : isMiss cache0 p
    · cases queue with
      | nil =>
        rw [mergeLoop_cons_miss_nil cache0 p ps acc hm]
        cases i with
        | zero => simp [hm]
        | succ j =>
          simp only [List.getElem?_cons_succ, ih [] acc j, List.take_succ_cons,
            List.filter_cons_of_pos hm]
          simp [hm]
      | cons v qs =>
        cases v with
        | none =>
          rw [mergeLoop_cons_miss_none cache0 p ps qs acc hm]
          cases i with
          | zero => simp [hm]
          | succ j =>
            simp only [List.getElem?_cons_succ, ih qs acc j, List.take_succ_cons,
              List.filter_cons_of_pos hm]
            simp [hm]
        | some elev =>
          rw [mergeLoop_cons_miss_some cache0 p ps elev qs acc hm]
          cases i with
          | zero => simp [hm]
          | succ j =>
            simp only [List.getElem?_cons_succ,
              ih qs ((cacheKey p.lat p.lng, elev) :: acc) j, List.take_succ_cons,
              List.filter_cons_of_pos hm]
            simp [hm]
    · have hm2 : isMiss cache0 p = false := by simpa using hm
      rw [mergeLoop_cons_hit cache0 p ps queue acc hm2]
      cases i with
      | zero => simp [hm2]
      | succ j =>
        simp only [List.getElem?_cons_succ, ih queue acc j, List.take_succ_cons,
          List.filter_cons]
        simp [hm2]

lemma strideList_getElem (bres : List (List (Option ℚ))) (n j : ℕ) :
    (strideList bres n)[j]? = if j < n then some (batchLookup bres j) else none := by
  rw [strideList]
  by_cases h : j < n
  · simp [List.getElem?_map, List.getElem?_range, h]
  · rw [if_neg h]
    apply List.getElem?_eq_none
    simpa using not_lt.mp h

lemma filter_take_rank_lt {α : Type} (pred : α → Bool) :
    ∀ (l : List α) (i : ℕ) (p : α), l[i]? = some p → pred p = true →
      ((l.take i).filter pred).length < (l.filter pred).length := by
  intro l
  induction l with
  | nil => intro i p hp _; simp at hp
  | cons a l ih =>
    intro i p hp hpred
    cases i with
    | zero =>
      simp only [List.getElem?_cons_zero, Option.some.injEq] at hp
      subst hp
      simp [List.filter_cons, hpred]
    | succ j =>
      simp only [List.getElem?_cons_succ] at hp
      rw [List.take_succ_cons]
      by_cases ha : pred a
      · simp only [List.filter_cons_of_pos ha, List.length_cons]
        exact Nat.succ_lt_succ (ih j p hp hpred)
      · have ha2 : pred a = false := by simpa using ha
        simp only [List.filter_cons, ha2, if_false]
        exact ih j p hp hpred

lemma resolution_bridge (fetchBatch : BatchFetcher) (cache : Cache) (points : List Pt)
    (i : ℕ) (p : Pt) (hp : points[i]? = some p) :
    (if isMiss cache p then
        ((strideList ((chunk (points.filter (isMiss cache)) BATCH_SIZE).map fetchBatch)
            (points.filter (isMiss cache)).length)[
          ((points.take i).filter (isMiss cache)).length]?).join
      else cacheFind cache (cacheKey p.lat p.lng)) =
      pointResolution fetchBatch cache points i := by
  rw [pointResolution, hp]
  dsimp only
  by_cases hm : isMiss cache p
  · rw [if_pos hm, if_pos hm, strideList_getElem,
      if_pos (filter_take_rank_lt (isMiss cache) points i p hp hm)]
    rfl
  · rw [if_neg hm, if_neg hm]

lemma fetchElevations_all_hits (fetchBatch : BatchFetcher) (cache : Cache) (points : List Pt)
    (hemp : (points.filter (isMiss cache)).isEmpty = true) :
    fetchElevations fetchBatch cache points =
      (Except.ok (points.map fun p => ⟨p.lat, p.lng, cacheFind cache (cacheKey p.lat p.lng)⟩),
        cache) := by
  rw [fetchElevations]
  simp only [hemp, if_true]

lemma fetchElevations_misses (fetchBatch : BatchFetcher) (cache : Cache) (points : List Pt)
    (hemp : (points.filter (isMiss cache)).isEmpty = false) :
    fetchElevations fetchBatch cache points =
      (if (mergeLoop cache points
            (strideList ((chunk (points.filter (isMiss cache)) BATCH_SIZE).map fetchBatch)
              (points.filter (isMiss cache)).length) cache).1.countP
            (fun r => r.elevation.isSome) = 0 then
        (Except.error "All elevation requests failed",
          (mergeLoop cache points
            (strideList ((chunk (points.filter (isMiss cache)) BATCH_SIZE).map fetchBatch)
              (points.filter (isMiss cache)).length) cache).2)
      else
        (Except.ok (mergeLoop cache points
            (strideList ((chunk (points.filter (isMiss cache)) BATCH_SIZE).map fetchBatch)
              (points.filter (isMiss cache)).length) cache).1,
          (mergeLoop cache points
            (strideList ((chunk (points.filter (isMiss cache)) BATCH_SIZE).map fetchBatch)
              (points.filter (isMiss cache)).length) cache).2)) := by
  rw [fetchElevations]
  simp only [hemp, if_false, Bool.false_eq_true]

lemma pointResolution_hit (fetchBatch : BatchFetcher) (cache : Cache) (points : List Pt)
    (i : ℕ) (p : Pt) (hp : points[i]? = some p) (hm : isMiss cache p = false) :
    pointResolution fetchBatch cache points i = cacheFind cache (cacheKey p.lat p.lng) := by
  rw [pointResolution, hp]
  dsimp only
  rw [if_neg (by simp [hm])]

lemma mergeLoop_resolution (fetchBatch : BatchFetcher) (cache : Cache) (points : List Pt)
    (i : ℕ) (hi : i < points.length) :
    (((mergeLoop cache points
        (strideList ((chunk (points.filter (isMiss cache)) BATCH_SIZE).map fetchBatch)
          (points.filter (isMiss cache)).length) cache).1[i]?).map fun r => r.elevation) =
      some (pointResolution fetchBatch cache points i) := by
  have hp : points[i]? = some points[i] := List.getElem?_eq_getElem hi
  rw [mergeLoop_elevation cache points _ cache i, hp, Option.map_some']
  exact congrArg some (resolution_bridge fetchBatch cache points i points[i] hp)

lemma mergeLoop_countP_zero_iff (fetchBatch : BatchFetcher) (cache : Cache) (points : List Pt) :
    ((mergeLoop cache points
        (strideList ((chunk (points.filter (isMiss cache)) BATCH_SIZE).map fetchBatch)
          (points.filter (isMiss cache)).length) cache).1.countP
        (fun r => r.elevation.isSome) = 0) ↔
      ∀ i, i < points.length → pointResolution fetchBatch cache points i = none := by
  have hlen := mergeLoop_length cache points
    (strideList ((chunk (points.filter (isMiss cache)) BATCH_SIZE).map fetchBatch)
      (points.filter (isMiss cache)).length) cache
  rw [List.countP_eq_zero]
  constructor
  · intro hall i hi
    have hi2 : i < (mergeLoop cache points
        (strideList ((chunk (points.filter (isMiss cache)) BATCH_SIZE).map fetchBatch)
          (points.filter (isMiss cache)).length) cache).1.length := by omega
    have hchr := mergeLoop_resolution fetchBatch cache points i hi
    rw [List.getElem?_eq_getElem hi2, Option.map_some'] at hchr
    have hmem := List.getElem?_mem (List.getElem?_eq_getElem hi2)
    have hnone := hall _ hmem
    rw [← Option.some.inj hchr]
    simpa using hnone
  · intro hfail r hmem
    obtain ⟨i, hri⟩ := List.mem_iff_getElem?.mp hmem
    have hi : i < points.length := by
      have := (List.getElem?_eq_some.mp hri).1
      omega
    have hchr := mergeLoop_resolution fetchBatch cache points i hi
    rw [hri, Option.map_some'] at hchr
    rw [hfail i hi] at hchr
    simp [Option.some.inj hchr]

/-- C5 (confirmed): for a non-empty input, fetchElevations throws the
all-failed error exactly when every point resolution (cache value for a hit,
its batch entry for a miss) is null; if some resolution succeeds it returns
normally, and in the returned list exactly the points whose resolution
failed carry elevation null (every entry equals its resolution). -/
theorem fetchElevations_error_iff_all_failed (fetchBatch : BatchFetcher) (cache : Cache)
    (points : List Pt) (hne : points ≠ []) :
    ((∀ i, i < points.length → pointResolution fetchBatch cache points i = none) →
      (fetchElevations fetchBatch cache points).1 =
        Except.error "All elevation requests failed") ∧
    ((∃ i, i < points.length ∧ pointResolution fetchBatch cache points i ≠ none) →
      ∃ res, (fetchElevations fetchBatch cache points).1 = Except.ok res) ∧
    (∀ res, (fetchElevations fetchBatch cache points).1 = Except.ok res →
      res.length = points.length ∧
        ∀ i, i < points.length →
          (res[i]?).map (fun r => r.elevation) =
            some (pointResolution fetchBatch cache points i)) := by
  have hlenpos : 0 < points.length := List.length_pos.mpr hne
  by_cases hemp : (points.filter (isMiss cache)).isEmpty
  · -- every point hits the cache
    have hfe := fetchElevations_all_hits fetchBatch cache points hemp
    have hall : ∀ p ∈ points, isMiss cache p = false := by
      intro p hp
      have hnil : points.filter (isMiss cache) = [] := by
        cases h : points.filter (isMiss cache) with
        | nil => rfl
        | cons a l => rw [h] at hemp; simp at hemp
      have := List.filter_eq_nil_iff.mp hnil p hp
      simpa using this
    have hres : ∀ i (hi : i < points.length),
        pointResolution fetchBatch cache points i =
          cacheFind cache (cacheKey (points.get ⟨i, hi⟩).lat (points.get ⟨i, hi⟩).lng) ∧
          pointResolution fetchBatch cache points i ≠ none := by
      intro i hi
      have hp : points[i]? = some (points.get ⟨i, hi⟩) := by
        simp [List.getElem?_eq_getElem hi]
      have hm : isMiss cache (points.get ⟨i, hi⟩) = false := hall _ (List.getElem?_mem hp)
      have heq := pointResolution_hit fetchBatch cache points i (points.get ⟨i, hi⟩) hp hm
      refine ⟨heq, ?_⟩
      rw [heq]
      rw [isMiss] at hm
      cases hcf : cacheFind cache (cacheKey (points.get ⟨i, hi⟩).lat (points.get ⟨i, hi⟩).lng) with
      | none => rw [hcf] at hm; simp at hm
      | some v => simp
    refine ⟨?_, ?_, ?_⟩
    · intro hfail
      exact absurd (hfail 0 hlenpos) (hres 0 hlenpos).2
    · intro _
      exact ⟨_, by rw [hfe]⟩
    · intro res hok
      rw [hfe] at hok
      have hres_eq : points.map
          (fun p => (⟨p.lat, p.lng, cacheFind cache (cacheKey p.lat p.lng)⟩ : ElevPt)) = res :=
        Except.ok.inj hok
      subst hres_eq
      refine ⟨by simp, ?_⟩
      intro i hi
      have hp : points[i]? = some points[i] := List.getElem?_eq_getElem hi
      rw [List.getElem?_map, hp, (hres i hi).1]
      simp
  · -- at least one miss: the merge loop runs
    have hemp2 : (points.filter (isMiss cache)).isEmpty = false := by
      simpa using hemp
    have hfe := fetchElevations_misses fetchBatch cache points hemp2
    have hcount := mergeLoop_countP_zero_iff fetchBatch cache points
    have hlen := mergeLoop_length cache points
      (strideList ((chunk (points.filter (isMiss cache)) BATCH_SIZE).map fetchBatch)
        (points.filter (isMiss cache)).length) cache
    refine ⟨?_, ?_, ?_⟩
    · intro hfail
      rw [hfe, if_pos (hcount.mpr hfail)]
    · rintro ⟨i, hi, hne2⟩
      have hc : ¬ ((mergeLoop cache points
          (strideList ((chunk (points.filter (isMiss cache)) BATCH_SIZE).map fetchBatch)
            (points.filter (isMiss cache)).length) cache).1.countP
          (fun r => r.elevation.isSome) = 0) :=
        fun h0 => hne2 (hcount.mp h0 i hi)
      rw [hfe, if_neg hc]
      exact ⟨_, rfl⟩
    · intro res hok
      rw [hfe] at hok
      by_cases hc : ((mergeLoop cache points
          (strideList ((chunk (points.filter (isMiss cache)) BATCH_SIZE).map fetchBatch)
            (points.filter (isMiss cache)).length) cache).1.countP
          (fun r => r.elevation.isSome) = 0)
      · rw [if_pos hc] at hok
        exact absurd hok (by simp)
      · rw [if_neg hc] at hok
        have hres_eq := Except.ok.inj hok
        subst hres_eq
        exact ⟨hlen, fun i hi => mergeLoop_resolution fetchBatch cache points i hi⟩

/-- C5 witness: a one-point call on an empty cache whose only batch entry
fails resolves nothing, and the call throws the all-failed error. -/
theorem fetchElevations_error_iff_all_failed_witness :
    (fetchElevations (fun batch => batch.map fun _ => none) [] [⟨1, 2⟩]).1 =
      Except.error "All elevation requests failed" :=
  (fetchElevations_error_iff_all_failed (fun batch => batch.map fun _ => none) [] [⟨1, 2⟩]
      (by simp)).1 (by
    intro i hi
    have hi0 : i = 0 := by simp at hi; omega
    subst hi0
    rfl)

lemma cacheFind_cons (k1 : ℤ × ℤ) (v : ℚ) (c : Cache) (k : ℤ × ℤ) :
    cacheFind ((k1, v) :: c) k = if k = k1 then some v else cacheFind c k := rfl

lemma mergeLoop_cacheFind (cache0 : Cache) :
    ∀ (ps : List Pt) (queue : List (Option ℚ)) (acc : Cache) (k : ℤ × ℤ),
      ((cacheFind (mergeLoop cache0 ps queue acc).2 k).isSome = true ↔
        ((cacheFind acc k).isSome = true ∨
          ∃ i q, ps[i]? = some q ∧ isMiss cache0 q = true ∧ cacheKey q.lat q.lng = k ∧
            (queue[((ps.take i).filter (isMiss cache0)).length]?).join ≠ none)) := by
  intro ps
  induction ps with
  | nil =>
    intro queue acc k
    rw [mergeLoop_nil]
    simp
  | cons p ps ih =>
    intro queue acc k
    by_cases hm : isMiss cache0 p
    · cases queue with
      | nil =>
        rw [mergeLoop_cons_miss_nil cache0 p ps acc hm]
        dsimp only
        rw [ih [] acc k]
        constructor
        · rintro (h | ⟨i, q, hq, hmq, hkq, hne⟩)
          · exact Or.inl h
          · exact absurd (by simp : (([] : List (Option ℚ))[
              ((ps.take i).filter (isMiss cache0)).length]?).join = none) hne
        · rintro (h | ⟨i, q, hq, hmq, hkq, hne⟩)
          · exact Or.inl h
          · exact absurd (by simp : (([] : List (Option ℚ))[
              (((p :: ps).take i).filter (isMiss cache0)).length]?).join = none) hne
      | cons v qs =>
        cases v with
        | none =>
          rw [mergeLoop_cons_miss_none cache0 p ps qs acc hm]
          dsimp only
          rw [ih qs acc k]
          constructor
          · rintro (h | ⟨i, q, hq, hmq, hkq, hne⟩)
            · exact Or.inl h
            · right
              refine ⟨i + 1, q, by simpa using hq, hmq, hkq, ?_⟩
              simpa [List.take_succ_cons, List.filter_cons_of_pos hm] using hne
          · rintro (h | ⟨i, q, hq, hmq, hkq, hne⟩)
            · exact Or.inl h
            · cases i with
              | zero =>
                simp only [List.getElem?_cons_zero, Option.some.injEq] at hq
                subst hq
                exact absurd (by simp : (((none : Option ℚ) :: qs)[
                  (((p :: ps).take 0).filter (isMiss cache0)).length]?).join = none) hne
              | succ j =>
                right
                refine ⟨j, q, by simpa using hq, hmq, hkq, ?_⟩
                have hshift := hne
                simp only [List.take_succ_cons, List.filter_cons_of_pos hm,
                  List.length_cons, List.getElem?_cons_succ] at hshift
                exact hshift
        | some elev =>
          rw [mergeLoop_cons_miss_some cache0 p ps elev qs acc hm]
          dsimp only
          rw [ih qs ((cacheKey p.lat p.lng, elev) :: acc) k]
          constructor
          · rintro (h | ⟨i, q, hq, hmq, hkq, hne⟩)
            · by_cases hk : k = cacheKey p.lat p.lng
              · right
                exact ⟨0, p, by simp, hm, hk.symm, by simp⟩
              · left
                rw [cacheFind_cons, if_neg hk] at h
                exact h
            · right
              refine ⟨i + 1, q, by simpa using hq, hmq, hkq, ?_⟩
              simpa [List.take_succ_cons, List.filter_cons_of_pos hm] using hne
          · rintro (h | ⟨i, q, hq, hmq, hkq, hne⟩)
            · left
              rw [cacheFind_cons]
              split
              · simp
              · exact h
            · cases i with
              | zero =>
                simp only [List.getElem?_cons_zero, Option.some.injEq] at hq
                subst hq
                left
                rw [cacheFind_cons, if_pos hkq.symm]
                simp
              | succ j =>
                right
                refine ⟨j, q, by simpa using hq, hmq, hkq, ?_⟩
                have hshift := hne
                simp only [List.take_succ_cons, List.filter_cons_of_pos hm,
                  List.length_cons, List.getElem?_cons_succ] at hshift
                exact hshift
    · have hm2 : isMiss cache0 p = false := by simpa using hm
      rw [mergeLoop_cons_hit cache0 p ps queue acc hm2]
      dsimp only
      rw [ih queue acc k]
      constructor
      · rintro (h | ⟨i, q, hq, hmq, hkq, hne⟩)
        · exact Or.inl h
        · right
          refine ⟨i + 1, q, by simpa using hq, hmq, hkq, ?_⟩
          simpa [List.take_succ_cons, List.filter_cons, hm2] using hne
      · rintro (h | ⟨i, q, hq, hmq, hkq, hne⟩)
        · exact Or.inl h
        · cases i with
          | zero =>
            simp only [List.getElem?_cons_zero, Option.some.injEq] at hq
            subst hq
            rw [hmq] at hm2
            exact absurd hm2 (by simp)
          | succ j =>
            right
            refine ⟨j, q, by simpa using hq, hmq, hkq, ?_⟩
            simpa [List.take_succ_cons, List.filter_cons, hm2] using hne

/-- C10 (confirmed): after a fetchElevations call the cache holds exactly
its previous keys plus the keys of points whose resolution succeeded: a key
is present afterwards iff it was present before or some input point with
that key resolved to a non-null elevation.  In particular a point whose
resolution failed inserts nothing (so it misses the cache again on a later
call), no existing entry is removed, and only non-null values are stored
(the cache maps keys to plain elevations). -/
theorem fetchElevations_cache_inserts_successful (fetchBatch : BatchFetcher) (cache : Cache)
    (points : List Pt) (k : ℤ × ℤ) :
    ((cacheFind (fetchElevations fetchBatch cache points).2 k).isSome = true ↔
      ((cacheFind cache k).isSome = true ∨
        ∃ i p, points[i]? = some p ∧ cacheKey p.lat p.lng = k ∧
          (pointResolution fetchBatch cache points i).isSome = true)) := by
  by_cases hemp : (points.filter (isMiss cache)).isEmpty
  · rw [fetchElevations_all_hits fetchBatch cache points hemp]
    dsimp only
    have hall : ∀ p ∈ points, isMiss cache p = false := by
      intro p hp
      have hnil : points.filter (isMiss cache) = [] := by
        cases h : points.filter (isMiss cache) with
        | nil => rfl
        | cons a l => rw [h] at hemp; simp at hemp
      simpa using List.filter_eq_nil_iff.mp hnil p hp
    constructor
    · exact Or.inl
    · rintro (h | ⟨i, p, hp, hk, hsome⟩)
      · exact h
      · have hm : isMiss cache p = false := hall _ (List.getElem?_mem hp)
        rw [pointResolution_hit fetchBatch cache points i p hp hm] at hsome
        rw [← hk]
        exact hsome
  · have hemp2 : (points.filter (isMiss cache)).isEmpty = false := by simpa using hemp
    have hc2 : (fetchElevations fetchBatch cache points).2 =
        (mergeLoop cache points
          (strideList ((chunk (points.filter (isMiss cache)) BATCH_SIZE).map fetchBatch)
            (points.filter (isMiss cache)).length) cache).2 := by
      rw [fetchElevations_misses fetchBatch cache points hemp2]
      split <;> rfl
    rw [hc2, mergeLoop_cacheFind cache points _ cache k]
    constructor
    · rintro (h | ⟨i, q, hq, hmq, hkq, hne⟩)
      · exact Or.inl h
      · right
        refine ⟨i, q, hq, hkq, ?_⟩
        have hb := resolution_bridge fetchBatch cache points i q hq
        rw [if_pos hmq] at hb
        rw [← hb]
        simpa [Option.isSome_iff_ne_none] using hne
    · rintro (h | ⟨i, p, hp, hk, hsome⟩)
      · exact Or.inl h
      · by_cases hm : isMiss cache p
        · right
          refine ⟨i, p, hp, hm, hk, ?_⟩
          have hb := resolution_bridge fetchBatch cache points i p hp
          rw [if_pos hm] at hb
          rw [hb]
          simpa [Option.isSome_iff_ne_none] using hsome
        · left
          have hm2 : isMiss cache p = false := by simpa using hm
          rw [pointResolution_hit fetchBatch cache points i p hp hm2] at hsome
          rw [← hk]
          exact hsome

/-! ## Haversine and destinationPoint geometry (claim C6) -/

lemma s_bounds (φ1 δ θ : ℝ) :
    -1 ≤ Real.sin φ1 * Real.cos δ + Real.cos φ1 * Real.sin δ * Real.cos θ ∧
      Real.sin φ1 * Real.cos δ + Real.cos φ1 * Real.sin δ * Real.cos θ ≤ 1 := by
  have h1 := Real.sin_sq_add_cos_sq φ1
  have h2 := Real.sin_sq_add_cos_sq δ
  have h3 := Real.sin_sq_add_cos_sq θ
  constructor
  · nlinarith [sq_nonneg (Real.sin φ1 + Real.cos δ),
      sq_nonneg (Real.cos φ1 + Real.sin δ * Real.cos θ), sq_nonneg (Real.sin δ * Real.sin θ)]
  · nlinarith [sq_nonneg (Real.sin φ1 - Real.cos δ),
      sq_nonneg (Real.cos φ1 - Real.sin δ * Real.cos θ), sq_nonneg (Real.sin δ * Real.sin θ)]

lemma arg_mul_cos (x y : ℝ) : Real.sqrt (x ^ 2 + y ^ 2) * Real.cos (atan2 y x) = x := by
  by_cases hz : (⟨x, y⟩ : ℂ) = 0
  · have hx : x = 0 ∧ y = 0 := by
      constructor
      · exact congrArg Complex.re hz
      · exact congrArg Complex.im hz
    rw [hx.1, hx.2]
    simp
  · rw [atan2, Complex.cos_arg hz]
    have habs : Complex.abs ⟨x, y⟩ = Real.sqrt (x ^ 2 + y ^ 2) := by
      rw [Complex.abs_apply, Complex.normSq_mk]
      ring_nf
    rw [habs]
    have hne : Real.sqrt (x ^ 2 + y ^ 2) ≠ 0 := by
      rw [← habs]
      simpa using hz
    field_simp

lemma dest_xy_norm (φ1 δ θ : ℝ) :
    (Real.cos δ - Real.sin φ1 *
        (Real.sin φ1 * Real.cos δ + Real.cos φ1 * Real.sin δ * Real.cos θ)) ^ 2 +
      (Real.sin θ * Real.sin δ * Real.cos φ1) ^ 2 =
    Real.cos φ1 ^ 2 *
      (1 - (Real.sin φ1 * Real.cos δ + Real.cos φ1 * Real.sin δ * Real.cos θ) ^ 2) := by
  have h1 := Real.sin_sq_add_cos_sq φ1
  have h2 := Real.sin_sq_add_cos_sq δ
  have h3 := Real.sin_sq_add_cos_sq θ
  linear_combination (2 * Real.sin φ1 * Real.cos φ1 * Real.cos δ * Real.sin δ * Real.cos θ +
      Real.sin φ1 ^ 2 * Real.cos δ ^ 2 +
      Real.cos φ1 ^ 2 * Real.sin δ ^ 2 * Real.cos θ ^ 2 - Real.cos δ ^ 2) * h1 +
    Real.cos φ1 ^ 2 * h2 + Real.cos φ1 ^ 2 * Real.sin δ ^ 2 * h3

lemma dest_central_angle (φ1 δ θ : ℝ) (hb : 0 ≤ Real.cos φ1) :
    Real.sin φ1 * (Real.sin φ1 * Real.cos δ + Real.cos φ1 * Real.sin δ * Real.cos θ) +
      Real.cos φ1 *
        Real.cos (Real.arcsin
          (Real.sin φ1 * Real.cos δ + Real.cos φ1 * Real.sin δ * Real.cos θ)) *
        Real.cos (atan2 (Real.sin θ * Real.sin δ * Real.cos φ1)
          (Real.cos δ - Real.sin φ1 *
            (Real.sin φ1 * Real.cos δ + Real.cos φ1 * Real.sin δ * Real.cos θ))) =
    Real.cos δ := by
  have hcosas : Real.cos (Real.arcsin
      (Real.sin φ1 * Real.cos δ + Real.cos φ1 * Real.sin δ * Real.cos θ)) =
      Real.sqrt (1 -
        (Real.sin φ1 * Real.cos δ + Real.cos φ1 * Real.sin δ * Real.cos θ) ^ 2) :=
    Real.cos_arcsin _
  have hK : Real.cos φ1 * Real.sqrt (1 -
      (Real.sin φ1 * Real.cos δ + Real.cos φ1 * Real.sin δ * Real.cos θ) ^ 2) =
      Real.sqrt ((Real.cos δ - Real.sin φ1 *
          (Real.sin φ1 * Real.cos δ + Real.cos φ1 * Real.sin δ * Real.cos θ)) ^ 2 +
        (Real.sin θ * Real.sin δ * Real.cos φ1) ^ 2) := by
    rw [dest_xy_norm φ1 δ θ]
    rw [Real.sqrt_mul (sq_nonneg (Real.cos φ1))]
    rw [Real.sqrt_sq hb]
  have harg := arg_mul_cos
    (Real.cos δ - Real.sin φ1 *
      (Real.sin φ1 * Real.cos δ + Real.cos φ1 * Real.sin δ * Real.cos θ))
    (Real.sin θ * Real.sin δ * Real.cos φ1)
  rw [hcosas, mul_assoc, ← mul_assoc (Real.cos φ1), hK]
  rw [mul_comm (Real.sqrt _) (Real.cos _)] at harg
  rw [mul_comm (Real.sqrt _) (Real.cos _)]
  rw [harg]
  ring

lemma atan2_sqrt_arcsin (a : ℝ) (h0 : 0 ≤ a) (h1 : a ≤ 1) :
    atan2 (Real.sqrt a) (Real.sqrt (1 - a)) = Real.arcsin (Real.sqrt a) := by
  have habs : Complex.abs ⟨Real.sqrt (1 - a), Real.sqrt a⟩ = 1 := by
    rw [Complex.abs_apply, Complex.normSq_mk]
    rw [Real.mul_self_sqrt (by linarith), Real.mul_self_sqrt h0]
    rw [show 1 - a + a = 1 by ring, Real.sqrt_one]
  have hz : (⟨Real.sqrt (1 - a), Real.sqrt a⟩ : ℂ) ≠ 0 := by
    intro h
    rw [h] at habs
    simp at habs
  have hsin : Real.sin (Complex.arg ⟨Real.sqrt (1 - a), Real.sqrt a⟩) = Real.sqrt a := by
    rw [Complex.sin_arg, habs]
    simp
  have hmem : |Complex.arg ⟨Real.sqrt (1 - a), Real.sqrt a⟩| ≤ Real.pi / 2 := by
    apply Complex.abs_arg_le_pi_div_two_iff.mpr
    exact Real.sqrt_nonneg _
  rw [atan2]
  conv_rhs => rw [← hsin]
  rw [Real.arcsin_sin (neg_le_of_abs_le hmem) (le_of_abs_le hmem)]

lemma sin_sq_half_angle (w : ℝ) : Real.sin (w / 2) ^ 2 = (1 - Real.cos w) / 2 := by
  have h := Real.sin_sq_eq_half_sub (w / 2)
  rw [show 2 * (w / 2) = w by ring] at h
  rw [h]
  ring

lemma haversine_arcsin_form (lat1 lng1 lat2 lng2 : ℝ)
    (h1 : 0 ≤ Real.cos (lat1 * DEG2RAD)) (h2 : 0 ≤ Real.cos (lat2 * DEG2RAD)) :
    haversine lat1 lng1 lat2 lng2 = 2 * R_EARTH *
      Real.arcsin (Real.sqrt ((1 -
        (Real.sin (lat1 * DEG2RAD) * Real.sin (lat2 * DEG2RAD) +
          Real.cos (lat1 * DEG2RAD) * Real.cos (lat2 * DEG2RAD) *
            Real.cos ((lng2 - lng1) * DEG2RAD))) / 2)) := by
  have hKnn : 0 ≤ Real.cos (lat1 * DEG2RAD) * Real.cos (lat2 * DEG2RAD) := mul_nonneg h1 h2
  have ha : Real.sin ((lat2 - lat1) * DEG2RAD / 2) ^ 2 +
      Real.cos (lat1 * DEG2RAD) * Real.cos (lat2 * DEG2RAD) *
        Real.sin ((lng2 - lng1) * DEG2RAD / 2) ^ 2 =
      (1 - (Real.sin (lat1 * DEG2RAD) * Real.sin (lat2 * DEG2RAD) +
        Real.cos (lat1 * DEG2RAD) * Real.cos (lat2 * DEG2RAD) *
          Real.cos ((lng2 - lng1) * DEG2RAD))) / 2 := by
    rw [sin_sq_half_angle, sin_sq_half_angle]
    have hsub : (lat2 - lat1) * DEG2RAD = lat2 * DEG2RAD - lat1 * DEG2RAD := by ring
    rw [hsub, Real.cos_sub]
    ring
  have hC1 : Real.sin (lat1 * DEG2RAD) * Real.sin (lat2 * DEG2RAD) +
      Real.cos (lat1 * DEG2RAD) * Real.cos (lat2 * DEG2RAD) *
        Real.cos ((lng2 - lng1) * DEG2RAD) ≤ 1 := by
    have hc := Real.cos_le_one (lat1 * DEG2RAD - lat2 * DEG2RAD)
    rw [Real.cos_sub] at hc
    nlinarith [Real.cos_le_one ((lng2 - lng1) * DEG2RAD)]
  have hC2 : -1 ≤ Real.sin (lat1 * DEG2RAD) * Real.sin (lat2 * DEG2RAD) +
      Real.cos (lat1 * DEG2RAD) * Real.cos (lat2 * DEG2RAD) *
        Real.cos ((lng2 - lng1) * DEG2RAD) := by
    have hc := Real.cos_le_one (lat1 * DEG2RAD + lat2 * DEG2RAD)
    rw [Real.cos_add] at hc
    have hprod : 0 ≤ Real.cos (lat1 * DEG2RAD) * Real.cos (lat2 * DEG2RAD) *
        (Real.cos ((lng2 - lng1) * DEG2RAD) + 1) :=
      mul_nonneg hKnn (by linarith [Real.neg_one_le_cos ((lng2 - lng1) * DEG2RAD)])
    nlinarith [hprod]
  show 2 * R_EARTH *
      atan2 (Real.sqrt (Real.sin ((lat2 - lat1) * DEG2RAD / 2) ^ 2 +
          Real.cos (lat1 * DEG2RAD) * Real.cos (lat2 * DEG2RAD) *
            Real.sin ((lng2 - lng1) * DEG2RAD / 2) ^ 2))
        (Real.sqrt (1 - (Real.sin ((lat2 - lat1) * DEG2RAD / 2) ^ 2 +
          Real.cos (lat1 * DEG2RAD) * Real.cos (lat2 * DEG2RAD) *
            Real.sin ((lng2 - lng1) * DEG2RAD / 2) ^ 2))) = _
  rw [ha, atan2_sqrt_arcsin _ (by linarith) (by linarith)]

lemma RAD2DEG_mul_DEG2RAD (x : ℝ) : x * RAD2DEG * DEG2RAD = x := by
  rw [RAD2DEG, DEG2RAD]
  field_simp

lemma arcsin_abs_sin_le (t : ℝ) (ht : 0 ≤ t) : Real.arcsin |Real.sin t| ≤ t := by
  have hpi := Real.pi_pos
  by_cases h : t ≤ Real.pi / 2
  · rw [abs_of_nonneg (Real.sin_nonneg_of_nonneg_of_le_pi ht (by linarith))]
    rw [Real.arcsin_sin (by linarith) h]
  · have := Real.arcsin_le_pi_div_two |Real.sin t|
    linarith

lemma cos_jsMod_sub (lam A : ℝ) :
    Real.cos ((jsMod ((lam * DEG2RAD + A) * RAD2DEG + 540) 360 - 180 - lam) * DEG2RAD) =
      Real.cos A := by
  rw [jsMod]
  have key : ((lam * DEG2RAD + A) * RAD2DEG + 540 -
      360 * ((jsTrunc (((lam * DEG2RAD + A) * RAD2DEG + 540) / 360) : ℤ) : ℝ) - 180 - lam) *
        DEG2RAD =
      A + ((1 - jsTrunc (((lam * DEG2RAD + A) * RAD2DEG + 540) / 360) : ℤ) : ℝ) *
        (2 * Real.pi) := by
    push_cast
    rw [DEG2RAD, RAD2DEG]
    have hpin : Real.pi ≠ 0 := Real.pi_ne_zero
    field_simp
    ring
  rw [key, Real.cos_add_int_mul_two_pi]

lemma haversine_destinationPoint_le (lat lng bearingDeg d : ℝ)
    (hlat1 : -90 ≤ lat) (hlat2 : lat ≤ 90) (hd : 0 ≤ d) :
    haversine lat lng (destinationPoint lat lng bearingDeg d).lat
      (destinationPoint lat lng bearingDeg d).lng ≤ d := by
  have hpi := Real.pi_pos
  have hφ1mem : lat * DEG2RAD ∈ Set.Icc (-(Real.pi / 2)) (Real.pi / 2) := by
    rw [DEG2RAD]
    constructor
    · nlinarith
    · nlinarith
  have hb : 0 ≤ Real.cos (lat * DEG2RAD) := Real.cos_nonneg_of_mem_Icc hφ1mem
  have hs := s_bounds (lat * DEG2RAD) (d / R_EARTH) (bearingDeg * DEG2RAD)
  have hlat2eq : (destinationPoint lat lng bearingDeg d).lat * DEG2RAD =
      Real.arcsin (Real.sin (lat * DEG2RAD) * Real.cos (d / R_EARTH) +
        Real.cos (lat * DEG2RAD) * Real.sin (d / R_EARTH) * Real.cos (bearingDeg * DEG2RAD)) :=
    RAD2DEG_mul_DEG2RAD _
  have hcos2 : 0 ≤ Real.cos ((destinationPoint lat lng bearingDeg d).lat * DEG2RAD) := by
    rw [hlat2eq, Real.cos_arcsin]
    exact Real.sqrt_nonneg _
  rw [haversine_arcsin_form lat lng _ _ hb hcos2]
  have hcosd : Real.cos (((destinationPoint lat lng bearingDeg d).lng - lng) * DEG2RAD) =
      Real.cos (atan2
        (Real.sin (bearingDeg * DEG2RAD) * Real.sin (d / R_EARTH) * Real.cos (lat * DEG2RAD))
        (Real.cos (d / R_EARTH) - Real.sin (lat * DEG2RAD) *
          Real.sin (Real.arcsin (Real.sin (lat * DEG2RAD) * Real.cos (d / R_EARTH) +
            Real.cos (lat * DEG2RAD) * Real.sin (d / R_EARTH) *
              Real.cos (bearingDeg * DEG2RAD))))) :=
    cos_jsMod_sub lng _
  have hC : Real.sin (lat * DEG2RAD) *
        Real.sin ((destinationPoint lat lng bearingDeg d).lat * DEG2RAD) +
      Real.cos (lat * DEG2RAD) *
        Real.cos ((destinationPoint lat lng bearingDeg d).lat * DEG2RAD) *
        Real.cos (((destinationPoint lat lng bearingDeg d).lng - lng) * DEG2RAD) =
      Real.cos (d / R_EARTH) := by
    rw [hlat2eq, hcosd]
    rw [Real.sin_arcsin hs.1 hs.2]
    exact dest_central_angle (lat * DEG2RAD) (d / R_EARTH) (bearingDeg * DEG2RAD) hb
  rw [hC]
  have hsq : Real.sqrt ((1 - Real.cos (d / R_EARTH)) / 2) = |Real.sin (d / R_EARTH / 2)| := by
    rw [← sin_sq_half_angle, Real.sqrt_sq_eq_abs]
  rw [hsq]
  have harc : Real.arcsin |Real.sin (d / R_EARTH / 2)| ≤ d / R_EARTH / 2 :=
    arcsin_abs_sin_le _ (by rw [R_EARTH]; positivity)
  calc 2 * R_EARTH * Real.arcsin |Real.sin (d / R_EARTH / 2)|
      ≤ 2 * R_EARTH * (d / R_EARTH / 2) := by
        apply mul_le_mul_of_nonneg_left harc
        norm_num [R_EARTH]
    _ = d := by
        rw [R_EARTH]
        field_simp
        ring

/-- C6 (confirmed): every point emitted by generateHexGrid lies within the
requested radius of the center: each point is constructed by
destinationPoint at an offset distance that passed the guard dist <= radius,
and the haversine distance back to the center equals the length of the
shortest arc for that geodesic, which never exceeds the travelled distance. -/
theorem generateHexGrid_within_radius (clat clng radiusM spacingM : ℝ)
    (hlat1 : -90 ≤ clat) (hlat2 : clat ≤ 90) (hr : 0 < radiusM) (hsp : 0 < spacingM)
    (p : Coordinate) (hp : p ∈ generateHexGrid clat clng radiusM spacingM) :
    haversine clat clng p.lat p.lng ≤ radiusM := by
  simp only [generateHexGrid, List.mem_flatMap] at hp
  obtain ⟨row, _, hmem⟩ := hp
  by_cases hy : |(row : ℝ) * (spacingM * Real.sqrt 3 / 2)| > radiusM
  · rw [if_pos hy] at hmem
    exact absurd hmem (List.not_mem_nil p)
  · rw [if_neg hy] at hmem
    rw [List.mem_filterMap] at hmem
    obtain ⟨col, _, heq⟩ := hmem
    by_cases hdist : Real.sqrt
        (((col : ℝ) * spacingM + (if row % 2 ≠ 0 then spacingM / 2 else 0)) *
            ((col : ℝ) * spacingM + (if row % 2 ≠ 0 then spacingM / 2 else 0)) +
          (row : ℝ) * (spacingM * Real.sqrt 3 / 2) *
            ((row : ℝ) * (spacingM * Real.sqrt 3 / 2))) > radiusM
    · rw [if_pos hdist] at heq
      exact absurd heq (by simp)
    · rw [if_neg hdist] at heq
      have hpd : p = destinationPoint clat clng
          (jsMod (atan2 ((col : ℝ) * spacingM + (if row % 2 ≠ 0 then spacingM / 2 else 0))
              ((row : ℝ) * (spacingM * Real.sqrt 3 / 2)) * RAD2DEG + 360) 360)
          (Real.sqrt
            (((col : ℝ) * spacingM + (if row % 2 ≠ 0 then spacingM / 2 else 0)) *
                ((col : ℝ) * spacingM + (if row % 2 ≠ 0 then spacingM / 2 else 0)) +
              (row : ℝ) * (spacingM * Real.sqrt 3 / 2) *
                ((row : ℝ) * (spacingM * Real.sqrt 3 / 2)))) :=
        (Option.some.inj heq).symm
      subst hpd
      exact le_trans
        (haversine_destinationPoint_le clat clng _ _ hlat1 hlat2 (Real.sqrt_nonneg _))
        (not_lt.mp hdist)

lemma sqrt_three_ge_one : (1 : ℝ) ≤ Real.sqrt 3 := by
  rw [show (1 : ℝ) = Real.sqrt 1 from Real.sqrt_one.symm]
  exact Real.sqrt_le_sqrt (by norm_num)

lemma generateHexGrid_small_eval :
    generateHexGrid 40 50 100 350 = [destinationPoint 40 50 0 0] := by
  have hsq1 := sqrt_three_ge_one
  have hrs_pos : (0 : ℝ) < 350 * Real.sqrt 3 / 2 := by positivity
  have hceil1 : ⌈(100 : ℝ) / (350 * Real.sqrt 3 / 2)⌉ = 1 := by
    rw [Int.ceil_eq_iff]
    constructor
    · push_cast
      have hp : (0 : ℝ) < 100 / (350 * Real.sqrt 3 / 2) := by positivity
      linarith
    · push_cast
      rw [div_le_one hrs_pos]
      nlinarith
  have hceil2 : ⌈(100 : ℝ) / 350⌉ = 1 := by
    rw [Int.ceil_eq_iff]
    push_cast
    norm_num
  have hrange : intRange (-1) 1 = [-1, 0, 1] := by decide
  have habs1 : |((-1 : ℤ) : ℝ) * (350 * Real.sqrt 3 / 2)| > 100 := by
    push_cast
    rw [abs_of_nonpos (by nlinarith)]
    nlinarith
  have habs2 : ¬ (|((0 : ℤ) : ℝ) * (350 * Real.sqrt 3 / 2)| > 100) := by
    push_cast
    simp
  have habs3 : |((1 : ℤ) : ℝ) * (350 * Real.sqrt 3 / 2)| > 100 := by
    push_cast
    rw [abs_of_nonneg (by nlinarith)]
    nlinarith
  have hsqrt122500 : Real.sqrt 122500 = 350 := by
    rw [show (122500 : ℝ) = 350 ^ 2 by norm_num]
    exact Real.sqrt_sq (by norm_num)
  simp only [generateHexGrid, hceil1, hceil2, hrange, List.flatMap_cons, List.flatMap_nil]
  rw [if_pos habs1, if_pos habs3, if_neg habs2]
  simp only [List.filterMap_cons, List.filterMap_nil, List.append_nil, List.nil_append]
  norm_num [hsqrt122500, atan2_zero_zero, jsMod_360_360]
  simp only [List.filterMap_cons]
  norm_num [hsqrt122500, atan2_zero_zero, jsMod_360_360]

/-- C6 witness: the statement applied to the grid around (40, 50) with
radius 100 m and spacing 350 m, whose single emitted point is the center. -/
theorem generateHexGrid_within_radius_witness :
    ((-90 : ℝ) ≤ 40 ∧ (40 : ℝ) ≤ 90 ∧ (0 : ℝ) < 100 ∧ (0 : ℝ) < 350 ∧
      destinationPoint 40 50 0 0 ∈ generateHexGrid 40 50 100 350) ∧
    haversine 40 50 (destinationPoint 40 50 0 0).lat (destinationPoint 40 50 0 0).lng ≤ 100 := by
  have hmem : destinationPoint 40 50 0 0 ∈ generateHexGrid 40 50 100 350 := by
    rw [generateHexGrid_small_eval]
    exact List.mem_singleton.mpr rfl
  exact ⟨⟨by norm_num, by norm_num, by norm_num, by norm_num, hmem⟩,
    generateHexGrid_within_radius 40 50 100 350 (by norm_num) (by norm_num) (by norm_num)
      (by norm_num) (destinationPoint 40 50 0 0) hmem⟩
